import Mathlib

/-
Verification development for the community_view_backend ingestion pipeline
(`tile_processing/geojson_to_database_cycle/database_manager.py`).

The geometry helpers and the upsert engine are embedded shallowly:

  * Python floats appearing as coordinate ordinates are modelled by `PyFloat`
    (a finite rational, NaN, or a signed infinity);
  * shapely operations that the repository merely calls (validity, area,
    `make_valid`, `simplify`, `buffer`, emptiness, WKB serialization) are an
    oracle record `Shapely`, since shapely is an external library: the
    repository's own control flow around those calls is what is embedded;
  * fallible Python code returns `Option`; the one spot where
    `safe_geometry_to_wkb` can propagate an exception returns `Except`;
  * the PostGIS table touched by `update_parcel_data` is a list of rows, the
    open transaction is a working copy of it: `commit` publishes the working
    copy, `rollback` restores the committed one.
-/

namespace CommunityView

/-- A Python float ordinate: a finite rational value, NaN, or a signed
infinity.  Coordinates read from GeoJSON carry these values. -/
inductive PyFloat where
  | finite (q : ℚ)
  | nan
  | inf
  | ninf
deriving DecidableEq, Repr

/-- Model of `math.isnan`. -/
def PyFloat.isNan : PyFloat → Bool
  | .nan => true
  | _ => false

/-- Model of `math.isinf`. -/
def PyFloat.isInf : PyFloat → Bool
  | .inf => true
  | .ninf => true
  | _ => false

/-- A coordinate tuple as shapely hands it to the cleaning helpers:
x, y and possibly further ordinates. -/
abbrev Coord := List PyFloat

/-- Embedding of `is_valid_coord` (database_manager.py, lines 63-71): a
coordinate with fewer than 2 ordinates, a NaN or infinite longitude or
latitude, or a longitude/latitude outside the WGS84 domain is invalid. -/
def is_valid_coord : Coord → Bool
  | lon :: lat :: _ =>
    if lon.isNan || lat.isNan || lon.isInf || lat.isInf then false
    else
      match lon, lat with
      | .finite ql, .finite qa =>
        if ql < -180 ∨ 180 < ql ∨ qa < -90 ∨ 90 < qa then false else true
      | _, _ => false
  | _ => false

/-- The truncation `clean_coords` applies to a kept coordinate (line 79):
a coordinate with more than two ordinates is cut down to x and y. -/
def normCoord (c : Coord) : Coord := if 2 < c.length then c.take 2 else c

/-- One iteration of the `for coord in coords` loop of `clean_coords`
(lines 77-81): a valid coordinate is appended (truncated to two ordinates
when it has more), an invalid one bumps the dropped counter. -/
def clean_coords_step (acc : List Coord × Nat) (c : Coord) : List Coord × Nat :=
  if is_valid_coord c then (acc.1 ++ [normCoord c], acc.2)
  else (acc.1, acc.2 + 1)

/-- Embedding of `clean_coords` (lines 73-84): returns the cleaned ring
together with the number of dropped coordinates. -/
def clean_coords (coords : List Coord) : List Coord × Nat :=
  coords.foldl clean_coords_step ([], 0)

/-- A shapely polygon: one exterior ring and a list of interior rings
(holes), each ring an ordered list of coordinate tuples. -/
structure Poly where
  exterior : List Coord
  interiors : List (List Coord)
deriving DecidableEq, Repr

/-- A shapely geometry as the pipeline distinguishes them: Polygon,
MultiPolygon, or any other OGC type (carrying its `geom_type` tag and its
coordinate payload). -/
inductive Geometry where
  | polygon (p : Poly)
  | multiPolygon (parts : List Poly)
  | other (geomType : String) (coords : List Coord)
deriving DecidableEq, Repr

/-- The `geom_type` attribute of a geometry. -/
def Geometry.geomTypeName : Geometry → String
  | .polygon _ => "Polygon"
  | .multiPolygon _ => "MultiPolygon"
  | .other t _ => t

/-- Oracle for the shapely operations the repository calls but does not
implement: validity, area, `make_valid`, `simplify`, `buffer`, emptiness,
WKB serialization (`none` models a serialization exception, which the
caller catches), and the WKT-based 2-D fallback used in the exception
branch of `_convert_3d_to_2d`. -/
structure Shapely where
  is_valid : Geometry → Bool
  area : Geometry → ℚ
  make_valid : Geometry → Geometry
  simplify : Geometry → ℚ → Geometry
  buffer : Geometry → ℚ → Geometry
  is_empty : Geometry → Bool
  wkbDumps : Geometry → Option (List Nat)
  wkt2d : Geometry → Option Geometry

/-- The near-zero area epsilon `1e-10` of `_repair_geometry`. -/
def eps : ℚ := 1 / 10 ^ 10

/-- The simplification tolerance `0.000001` of `_repair_geometry`. -/
def simplifyTol : ℚ := 1 / 10 ^ 6

/-- Embedding of `_repair_geometry` (lines 22-56): canonicalize with
`make_valid`; if the result is still invalid, a Polygon with area below
`eps` is rejected, otherwise it is simplified and zero-buffered and kept
only if that made it valid with positive area; a MultiPolygon keeps only
valid parts with area above `eps`; everything else is rejected.  The
`except` clause (any exception gives `None`) has no counterpart here since
the oracle operations are total functions. -/
def repair_geometry (sh : Shapely) (g : Geometry) : Option Geometry :=
  let repaired := sh.make_valid g
  if !(sh.is_valid repaired) then
    if repaired.geomTypeName = "Polygon" then
      if sh.area repaired < eps then none
      else
        let simplified := sh.simplify repaired simplifyTol
        let buffered := sh.buffer simplified 0
        if sh.is_valid buffered = true ∧ 0 < sh.area buffered then some buffered
        else none
    else if repaired.geomTypeName = "MultiPolygon" then
      match repaired with
      | .multiPolygon parts =>
        let valid_parts := parts.filter fun part =>
          sh.is_valid (.polygon part) && decide (eps < sh.area (.polygon part))
        if valid_parts.isEmpty then none else some (.multiPolygon valid_parts)
      | _ => none
    else none
  else some repaired

/-- One iteration of the interior-ring loop of
`_validate_and_clean_coordinates` (lines 93-99): keep a cleaned hole with
at least 4 points, drop it otherwise. -/
def interiorStep (acc : List (List Coord)) (ring : List Coord) : List (List Coord) :=
  let interior := (clean_coords ring).1
  if 4 ≤ interior.length then acc ++ [interior] else acc

/-- The Polygon branch of `_validate_and_clean_coordinates` (lines 87-105):
clean the exterior ring, abort the whole polygon if it keeps fewer than 4
points; clean each interior ring, dropping a hole that keeps fewer than 4
points; reject the reassembled polygon if shapely finds it invalid. -/
def cleanPolyCore (sh : Shapely) (p : Poly) : Option Poly :=
  let exterior := (clean_coords p.exterior).1
  if exterior.length < 4 then none
  else
    let interiors := p.interiors.foldl interiorStep []
    let poly : Poly := ⟨exterior, interiors⟩
    if sh.is_valid (.polygon poly) then some poly else none

/-- One iteration of the part loop of the MultiPolygon branch (lines
108-114): keep a part whose recursive cleaning succeeded and is valid. -/
def mpCleanStep (sh : Shapely) (acc : List Poly) (part : Poly) : List Poly :=
  match cleanPolyCore sh part with
  | some cp => if sh.is_valid (.polygon cp) then acc ++ [cp] else acc
  | none => acc

/-- Embedding of `_validate_and_clean_coordinates` (lines 58-127).  A
MultiPolygon keeps the parts whose recursive cleaning succeeds and is
valid, failing only if no part survives; any other geometry type is passed
through unchanged (line 122-123).  A geometry whose `geom_type` tag claims
Polygon or MultiPolygon without the matching structure would raise an
attribute error in the source, which the enclosing `except` turns into
`None`. -/
def validate_and_clean (sh : Shapely) (g : Geometry) : Option Geometry :=
  if g.geomTypeName = "Polygon" then
    match g with
    | .polygon p => (cleanPolyCore sh p).map .polygon
    | _ => none
  else if g.geomTypeName = "MultiPolygon" then
    match g with
    | .multiPolygon parts =>
      let valid_parts := parts.foldl (mpCleanStep sh) []
      if valid_parts.isEmpty then none else some (.multiPolygon valid_parts)
    | _ => none
  else some g

/-- The `is_3d` helper of `_convert_3d_to_2d` (lines 245-250): does any
coordinate of the ring carry a third ordinate. -/
def is_3d (coords : List Coord) : Bool := coords.any fun c => 2 < c.length

/-- The `strip_z` helper (lines 252-253).  The source destructures each
coordinate as `x, y, *rest`; on the coordinate tuples shapely produces
(always at least x and y) that equals taking the first two ordinates. -/
def strip_z (coords : List Coord) : List Coord := coords.map fun c => c.take 2

/-- Stripping the z ordinate from every ring of one polygon (lines
261-263 and 274-276). -/
def stripPoly (p : Poly) : Poly := ⟨strip_z p.exterior, p.interiors.map strip_z⟩

/-- One iteration of the part loop of the MultiPolygon branch of
`_convert_3d_to_2d` (lines 272-278): keep a stripped part that is valid
and whose stripped exterior has at least 4 points. -/
def mpStripStep (sh : Shapely) (acc : List Poly) (p : Poly) : List Poly :=
  if sh.is_valid (.polygon (stripPoly p)) && decide (4 ≤ (strip_z p.exterior).length) then
    acc ++ [stripPoly p]
  else acc

/-- Embedding of `_convert_3d_to_2d` (lines 241-297).  The 3-D test looks
only at exterior rings: a Polygon whose exterior is 2-D is returned as is,
as is a MultiPolygon all of whose part exteriors are 2-D.  When stripping
does run, a MultiPolygon keeps only parts that are valid with a stripped
exterior of at least 4 points.  Non-polygonal geometries take a JSON
round-trip, which is the structural identity.  The exception fallback
(rebuilding from WKT) is reachable here only for a geometry whose type tag
does not match its structure. -/
def convert_3d_to_2d (sh : Shapely) (g : Geometry) : Option Geometry :=
  if g.geomTypeName = "Polygon" then
    match g with
    | .polygon p =>
      if !(is_3d p.exterior) then some (.polygon p)
      else some (.polygon (stripPoly p))
    | _ => sh.wkt2d g
  else if g.geomTypeName = "MultiPolygon" then
    match g with
    | .multiPolygon parts =>
      if parts.all (fun p => !(is_3d p.exterior)) then some (.multiPolygon parts)
      else
        let valid_polys := parts.foldl (mpStripStep sh) []
        if valid_polys.isEmpty then none else some (.multiPolygon valid_polys)
    | _ => sh.wkt2d g
  else some g

/-- The body of the big `try` block of `safe_geometry_to_wkb` (lines
155-239): empty check, repair of an invalid input, coordinate cleaning,
3-D to 2-D conversion, one more repair pass if the 2-D result is invalid,
then WKB serialization.  Every exception inside this block is caught and
turned into `None`, so the body is a total `Option`-valued function. -/
def wkbBody (sh : Shapely) (g0 : Geometry) : Option (List Nat) :=
  if sh.is_empty g0 then none
  else
    let step1 : Option Geometry :=
      if !(sh.is_valid g0) then
        match repair_geometry sh g0 with
        | some rg => if sh.is_valid rg then some rg else none
        | none => none
      else some g0
    match step1 with
    | none => none
    | some g1 =>
      match validate_and_clean sh g1 with
      | none => none
      | some g2 =>
        match convert_3d_to_2d sh g2 with
        | none => none
        | some g3 =>
          let step4 : Option Geometry :=
            if !(sh.is_valid g3) then
              match repair_geometry sh g3 with
              | some rg => if sh.is_valid rg then some rg else none
              | none => none
            else some g3
          match step4 with
          | none => none
          | some g4 => sh.wkbDumps g4

/-- The parcel id whose processing gets extra debug output in
`safe_geometry_to_wkb` (line 141). -/
def debugParcelId : String := "teton_county_wy_000001"

/-- Embedding of `safe_geometry_to_wkb` (lines 138-239).  The debug block
for `debugParcelId` runs before the null check and dereferences the
geometry; with a null geometry it therefore raises an uncaught attribute
error, modelled as `Except.error`.  On every other path the function
returns `.ok`: `none` for a null geometry, otherwise the `try`-block
result. -/
def safe_geometry_to_wkb (sh : Shapely) (geometry : Option Geometry)
    (parcel_id : Option String) : Except Unit (Option (List Nat)) :=
  if parcel_id = some debugParcelId ∧ geometry.isNone then .error ()
  else
    match geometry with
    | none => .ok none
    | some g => .ok (wkbBody sh g)

/-- A scalar property value as read from a GeoJSON feature: Python `None`,
a string, or a number. -/
inductive PyValue where
  | none
  | str (s : String)
  | num (x : PyFloat)
deriving DecidableEq, Repr

/-- The membership test `val in [None, '', 'null', 'nan']` of
`_parse_numeric` (line 501).  A numeric value never compares equal to any
of the four entries (NaN is not even equal to itself in Python). -/
def isNullLike (v : PyValue) : Bool :=
  match v with
  | .none => true
  | .str s => s == "" || s == "null" || s == "nan"
  | .num _ => false

/-- A model of the Python builtin `float`: `Option.none` stands for a
raised conversion error. -/
def FloatConv := PyValue → Option PyFloat

/-- Embedding of `_parse_numeric` (lines 499-505): null-like values map to
`None`, everything else is handed to `float`, whose exception the `except`
clause also turns into `None`. -/
def parse_numeric (fc : FloatConv) (val : PyValue) : Option PyFloat :=
  if isNullLike val then Option.none else fc val

/-- One input feature as `update_parcel_data` reads it (lines 546-560),
plus two failure switches modelling database errors: `failWrite` makes the
record's UPDATE/INSERT raise an error that no inner handler catches, and
`geomWriteFail` makes a spatial write raise the error the inner
`except ... as geom_error` handler catches. -/
structure Feature where
  global_parcel_uid : String
  county_parcel_id_num : String
  owner_name : String
  physical_address : String
  mailing_address : String
  acreage : PyValue
  property_value : PyValue
  land_type : String
  deed_reference : String
  owner_city : String
  owner_state : String
  owner_zip : String
  property_details_link : String
  tax_details_link : String
  clerk_records_link : String
  county : String
  state : String
  geometry : Option Geometry
  failWrite : Bool
  geomWriteFail : Bool
deriving DecidableEq, Repr

/-- A persisted row of the ownership table (the columns the pipeline
writes; `created_at`/`updated_at` timestamps are not modelled). -/
structure Row where
  global_parcel_uid : String
  county_parcel_id_num : String
  owner_name : String
  physical_address : String
  mailing_address : String
  acreage : Option PyFloat
  property_value : Option PyFloat
  land_type_description : String
  deed_reference : String
  owner_city : String
  owner_state : String
  owner_zip : String
  property_details_link : String
  tax_details_link : String
  clerk_records_link : String
  address : String
  county : String
  state : String
  geometry : Option (List Nat)
  has_spatial_data : Bool
deriving DecidableEq, Repr

/-- Effect of the spatial UPDATE statement (lines 618-633): every column of
its SET list is overwritten; `global_parcel_uid` is the key and
`county_parcel_id_num` does not appear in the SET list, so both keep their
stored values. -/
def applySpatialUpdate (fc : FloatConv) (f : Feature) (wkb : List Nat) (r : Row) : Row :=
  { r with
    owner_name := f.owner_name
    physical_address := f.physical_address
    mailing_address := f.mailing_address
    acreage := parse_numeric fc f.acreage
    property_value := parse_numeric fc f.property_value
    land_type_description := f.land_type
    deed_reference := f.deed_reference
    owner_city := f.owner_city
    owner_state := f.owner_state
    owner_zip := f.owner_zip
    property_details_link := f.property_details_link
    tax_details_link := f.tax_details_link
    clerk_records_link := f.clerk_records_link
    address := f.physical_address
    county := f.county
    state := f.state
    geometry := some wkb
    has_spatial_data := true }

/-- Effect of the non-spatial UPDATE statements (lines 640-654 and
659-673): same SET list but geometry NULL and `has_spatial_data` FALSE. -/
def applyNonSpatialUpdate (fc : FloatConv) (f : Feature) (r : Row) : Row :=
  { applySpatialUpdate fc f [] r with
    geometry := Option.none
    has_spatial_data := false }

/-- Effect of the spatial INSERT statement (lines 680-698). -/
def spatialInsertRow (fc : FloatConv) (f : Feature) (wkb : List Nat) : Row :=
  { global_parcel_uid := f.global_parcel_uid
    county_parcel_id_num := f.county_parcel_id_num
    owner_name := f.owner_name
    physical_address := f.physical_address
    mailing_address := f.mailing_address
    acreage := parse_numeric fc f.acreage
    property_value := parse_numeric fc f.property_value
    land_type_description := f.land_type
    deed_reference := f.deed_reference
    owner_city := f.owner_city
    owner_state := f.owner_state
    owner_zip := f.owner_zip
    property_details_link := f.property_details_link
    tax_details_link := f.tax_details_link
    clerk_records_link := f.clerk_records_link
    address := f.physical_address
    county := f.county
    state := f.state
    geometry := some wkb
    has_spatial_data := true }

/-- Effect of the non-spatial INSERT statements (lines 706-724 and
729-747): geometry NULL and `has_spatial_data` FALSE. -/
def nonSpatialInsertRow (fc : FloatConv) (f : Feature) : Row :=
  { spatialInsertRow fc f [] with
    geometry := Option.none
    has_spatial_data := false }

/-- The SELECT by `global_parcel_uid` (line 595): first row of the
transaction's view of the table with that key. -/
def findRow (t : List Row) (uid : String) : Option Row :=
  t.find? fun r => r.global_parcel_uid == uid

/-- An UPDATE .. WHERE global_parcel_uid = uid applied to the
transaction's view of the table. -/
def updateWhere (t : List Row) (uid : String) (g : Row → Row) : List Row :=
  t.map fun r => if r.global_parcel_uid == uid then g r else r

/-- Adding an element to one of the Python bookkeeping sets
(`processed_parcel_ids` and friends), modelled as insertion-ordered
duplicate-free lists. -/
def insertOnce (l : List String) (x : String) : List String :=
  if x ∈ l then l else l ++ [x]

/-- Incrementing `parcel_id_count[uid]` (lines 565-569), the dictionary
modelled as an association list. -/
def bumpCount (m : List (String × Nat)) (x : String) : List (String × Nat) :=
  if (m.find? fun e => e.1 == x).isSome then
    m.map fun e => if e.1 == x then (e.1, e.2 + 1) else e
  else m ++ [(x, 1)]

/-- Reading `parcel_id_count[uid]`, with 0 for a missing key. -/
def lookupCount (m : List (String × Nat)) (x : String) : Nat :=
  match m.find? fun e => e.1 == x with
  | some e => e.2
  | none => 0

/-- The mutable state of one `update_parcel_data` run: the open
transaction's view of the table (`work`), the committed table, the outcome
counters and the identifier-tracking sets. -/
structure UState where
  work : List Row
  committed : List Row
  successful_inserts : Nat
  skipped_rows : Nat
  spatial_count : Nat
  non_spatial_count : Nat
  geometry_conversion_failures : Nat
  null_geometries : Nat
  empty_geometries : Nat
  processed_parcel_ids : List String
  successful_parcel_ids : List String
  failed_parcel_ids : List String
  duplicate_parcel_ids : List String
  parcel_id_count : List (String × Nat)
deriving DecidableEq, Repr

/-- The duplicate tracking at the top of the record loop (lines 562-569):
record the id as processed, flag it as duplicate if already counted, and
bump its count. -/
def trackIds (st : UState) (uid : String) : UState :=
  { st with
    processed_parcel_ids := insertOnce st.processed_parcel_ids uid
    duplicate_parcel_ids :=
      if (st.parcel_id_count.find? fun e => e.1 == uid).isSome then
        insertOnce st.duplicate_parcel_ids uid
      else st.duplicate_parcel_ids
    parcel_id_count := bumpCount st.parcel_id_count uid }

/-- The outer `except` clause of the record loop (lines 753-758): mark the
record failed, count it skipped, and call `conn.rollback()`, which
discards every uncommitted statement of the open transaction — the working
view falls back to the committed table. -/
def recordFailure (st : UState) (uid : String) : UState :=
  { st with
    failed_parcel_ids := insertOnce st.failed_parcel_ids uid
    skipped_rows := st.skipped_rows + 1
    work := st.committed }

/-- The update-or-insert phase of one record (lines 614-751), entered with
the existence-check answer and the resolved WKB.  `failWrite` models the
write statement raising an error no inner handler catches. -/
def writePhase (fc : FloatConv) (st : UState) (f : Feature) (uid : String)
    (rowFound : Bool) (w : Option (List Nat)) : UState :=
  if f.failWrite then recordFailure st uid
  else
    let st :=
      if rowFound then
        match w with
        | Option.some wkb =>
          if f.geomWriteFail then
            { st with
              geometry_conversion_failures := st.geometry_conversion_failures + 1
              work := updateWhere st.work uid (applyNonSpatialUpdate fc f)
              non_spatial_count := st.non_spatial_count + 1
              successful_parcel_ids := insertOnce st.successful_parcel_ids uid }
          else
            { st with
              work := updateWhere st.work uid (applySpatialUpdate fc f wkb)
              spatial_count := st.spatial_count + 1
              successful_parcel_ids := insertOnce st.successful_parcel_ids uid }
        | Option.none =>
          { st with
            work := updateWhere st.work uid (applyNonSpatialUpdate fc f)
            non_spatial_count := st.non_spatial_count + 1
            successful_parcel_ids := insertOnce st.successful_parcel_ids uid }
      else
        match w with
        | Option.some wkb =>
          if f.geomWriteFail then
            { st with
              geometry_conversion_failures := st.geometry_conversion_failures + 1
              failed_parcel_ids := insertOnce st.failed_parcel_ids uid
              work := st.work ++ [nonSpatialInsertRow fc f]
              non_spatial_count := st.non_spatial_count + 1
              successful_parcel_ids := insertOnce st.successful_parcel_ids uid }
          else
            { st with
              work := st.work ++ [spatialInsertRow fc f wkb]
              spatial_count := st.spatial_count + 1
              successful_parcel_ids := insertOnce st.successful_parcel_ids uid }
        | Option.none =>
          { st with
            work := st.work ++ [nonSpatialInsertRow fc f]
            non_spatial_count := st.non_spatial_count + 1
            successful_parcel_ids := insertOnce st.successful_parcel_ids uid }
    { st with successful_inserts := st.successful_inserts + 1 }

/-- One iteration of the record loop of `update_parcel_data` (lines
544-758): track the id, run the existence check against the transaction's
view, resolve the geometry through `safe_geometry_to_wkb` (bumping the
null/empty/failure counters), then update or insert. -/
def processRecord (sh : Shapely) (fc : FloatConv) (st : UState) (f : Feature) : UState :=
  let uid := f.global_parcel_uid
  let st := trackIds st uid
  let rowFound := (findRow st.work uid).isSome
  match f.geometry with
  | Option.none =>
    let st := { st with null_geometries := st.null_geometries + 1 }
    writePhase fc st f uid rowFound Option.none
  | Option.some g =>
    if sh.is_empty g then
      let st := { st with empty_geometries := st.empty_geometries + 1 }
      writePhase fc st f uid rowFound Option.none
    else
      match safe_geometry_to_wkb sh (Option.some g) (Option.some uid) with
      | .error _ => recordFailure st uid
      | .ok w =>
        let st :=
          if w.isNone then
            { st with geometry_conversion_failures := st.geometry_conversion_failures + 1 }
          else st
        writePhase fc st f uid rowFound w

/-- Fuel-indexed worker for splitting the input into batches. -/
def toBatchesGo {α : Type} (n : Nat) : Nat → List α → List (List α)
  | _, [] => []
  | 0, _ :: _ => []
  | fuel + 1, x :: xs => (x :: xs.take (n - 1)) :: toBatchesGo n fuel (xs.drop (n - 1))

/-- The batch slicing `gdf.iloc[batch_start:batch_end]` over
`range(0, total_rows, batch_size)` (lines 539-541). -/
def toBatches {α : Type} (n : Nat) (l : List α) : List (List α) :=
  toBatchesGo n l.length l

/-- The fixed batch size of `update_parcel_data` (line 535). -/
def batchSize : Nat := 1000

/-- A fresh run state over a given committed table. -/
def initState (table : List Row) : UState :=
  { work := table
    committed := table
    successful_inserts := 0
    skipped_rows := 0
    spatial_count := 0
    non_spatial_count := 0
    geometry_conversion_failures := 0
    null_geometries := 0
    empty_geometries := 0
    processed_parcel_ids := []
    successful_parcel_ids := []
    failed_parcel_ids := []
    duplicate_parcel_ids := []
    parcel_id_count := [] }

/-- One batch iteration (lines 539-765): process each record, then
`conn.commit()` publishes the transaction's view.  The commit itself
cannot raise in this embedding, so the commit-failure handler (lines
763-765) has no effect to model. -/
def runBatch (sh : Shapely) (fc : FloatConv) (st : UState) (batch : List Feature) : UState :=
  let st := batch.foldl (processRecord sh fc) st
  { st with committed := st.work }

/-- Embedding of `update_parcel_data` (lines 507-814): batched upsert of
the features into the table, starting from the given committed table. -/
def update_parcel_data (sh : Shapely) (fc : FloatConv) (table : List Row)
    (features : List Feature) : UState :=
  (toBatches batchSize features).foldl (runBatch sh fc) (initState table)

/-! Spec-side helper definitions used in theorem statements. -/

/-- Every coordinate of the polygon has at most two ordinates. -/
def poly2d (p : Poly) : Bool :=
  (p.exterior ++ p.interiors.flatten).all fun c => c.length ≤ 2

/-- Every coordinate of the geometry has at most two ordinates. -/
def geom2d : Geometry → Bool
  | .polygon p => poly2d p
  | .multiPolygon ps => ps.all poly2d
  | .other _ cs => cs.all fun c => c.length ≤ 2

/-- The claim-side reading of a zero-area geometry, applied to the
canonicalized geometry: a Polygon (by `geom_type` tag) of area 0, a
MultiPolygon all of whose parts have area 0, or any non-polygonal type
(for which `_repair_geometry` never salvages anything). -/
def zeroAreaGeom (sh : Shapely) (g : Geometry) : Bool :=
  if g.geomTypeName = "Polygon" then decide (sh.area g = 0)
  else if g.geomTypeName = "MultiPolygon" then
    match g with
    | .multiPolygon parts => parts.all fun p => decide (sh.area (.polygon p) = 0)
    | _ => true
  else true

/-- The cleaned exterior ring of a polygon. -/
def cleanedExterior (p : Poly) : List Coord := (clean_coords p.exterior).1

/-- The cleaned interior rings of a polygon: each hole is cleaned, and a
hole left with fewer than 4 points is dropped. -/
def cleanedInteriors (p : Poly) : List (List Coord) :=
  p.interiors.filterMap fun ring =>
    if 4 ≤ (clean_coords ring).1.length then some (clean_coords ring).1 else Option.none

/-- The polygon `_validate_and_clean_coordinates` reassembles before its
final validity check. -/
def cleanedCandidate (p : Poly) : Poly := ⟨cleanedExterior p, cleanedInteriors p⟩

/-- The geometry resolution of one record (lines 600-612): no WKB for a
null or empty geometry, otherwise the result of the conversion pipeline. -/
def geomResolve (sh : Shapely) (f : Feature) : Option (List Nat) :=
  match f.geometry with
  | Option.none => Option.none
  | Option.some g => if sh.is_empty g then Option.none else wkbBody sh g

/-- The row a failure-free record leaves for its key: an update of the
existing row, or a fresh insert. -/
def stepRow (sh : Shapely) (fc : FloatConv) (cur : Option Row) (f : Feature) : Row :=
  match cur, geomResolve sh f with
  | some r, some w => applySpatialUpdate fc f w r
  | some r, Option.none => applyNonSpatialUpdate fc f r
  | Option.none, some w => spatialInsertRow fc f w
  | Option.none, Option.none => nonSpatialInsertRow fc f

/-- The table transformation a failure-free record performs. -/
def upsertW (sh : Shapely) (fc : FloatConv) (t : List Row) (f : Feature) : List Row :=
  if (findRow t f.global_parcel_uid).isSome then
    updateWhere t f.global_parcel_uid fun r => stepRow sh fc (some r) f
  else t ++ [stepRow sh fc Option.none f]

/-- The duplicate-tracking step on the pair (count dictionary, duplicate
set). -/
def trackStep (cd : List (String × Nat) × List String) (uid : String) :
    List (String × Nat) × List String :=
  (bumpCount cd.1 uid,
   if (cd.1.find? fun e => e.1 == uid).isSome then insertOnce cd.2 uid else cd.2)

/-- The keys of a table. -/
def uids (t : List Row) : List String := t.map fun r => r.global_parcel_uid

/-- The invariant tying the count dictionary and the duplicate set to the
multiset of identifiers processed so far. -/
def TrackInv (seen : List String) (cd : List (String × Nat) × List String) : Prop :=
  (∀ v, lookupCount cd.1 v = seen.count v) ∧
  (∀ v, ((cd.1.find? fun e => e.1 == v).isSome = true ↔ 1 ≤ seen.count v)) ∧
  cd.2.Nodup ∧
  (∀ v, v ∈ cd.2 ↔ 2 ≤ seen.count v)


/-- Collapsing the features that share one key into the row the table
finally holds for it. -/
def collapseRow (sh : Shapely) (fc : FloatConv) : Option Row → List Feature → Option Row
  | cur, [] => cur
  | cur, f :: rest => collapseRow sh fc (some (stepRow sh fc cur f)) rest

/-! Concrete oracles and inputs used by witnesses and counterexamples. -/

/-- Oracle where every geometry is valid and nonempty; serialization
always succeeds. -/
def shAll : Shapely :=
  { is_valid := fun _ => true
    area := fun _ => 0
    make_valid := fun g => g
    simplify := fun g _ => g
    buffer := fun g _ => g
    is_empty := fun _ => false
    wkbDumps := fun _ => some [0]
    wkt2d := fun g => some g }

/-- Oracle where every geometry is invalid and has area 0. -/
def shNone : Shapely := { shAll with is_valid := fun _ => false }

/-- Float-conversion oracle where every conversion raises. -/
def fcNone : FloatConv := fun _ => Option.none

def pf0 : PyFloat := .finite 0
def pf1 : PyFloat := .finite 1
def pf5 : PyFloat := .finite 5
def pf200 : PyFloat := .finite 200

/-- A closed, valid, fully 2-D square ring of 5 points. -/
def ring2d : List Coord :=
  [[pf0, pf0], [pf1, pf0], [pf1, pf1], [pf0, pf1], [pf0, pf0]]

/-- A closed ring of 4 coordinates, each valid but carrying a z ordinate. -/
def ring3d : List Coord :=
  [[pf0, pf0, pf5], [pf1, pf0, pf5], [pf1, pf1, pf5], [pf0, pf0, pf5]]

/-- Polygon with a 2-D exterior and a 3-D interior ring. -/
def polyMixed : Poly := ⟨ring2d, [ring3d]⟩

/-- Polygon with a 3-D exterior and a 3-D interior ring. -/
def poly3d : Poly := ⟨ring3d, [ring3d]⟩

/-- Polygon whose exterior keeps only 3 valid coordinates. -/
def polyShortExt : Poly :=
  ⟨[[pf0, pf0], [pf1, pf0], [pf1, pf1], [pf0, pf200]], []⟩

/-- Polygon with a good exterior and one hole that cleans to 3 points. -/
def polySmallHole : Poly :=
  ⟨ring2d, [[[pf0, pf0], [pf1, pf0], [pf1, pf1], [pf0, pf200]]]⟩

/-- A coordinate with an out-of-domain longitude. -/
def badCoord : Coord := [pf200, pf0]

def sPoint : String := "Point"
def sPolygonTag : String := "Polygon"
def sNan : String := "nan"

def uidA : String := "a"
def uidB : String := "b"
def uidC : String := "c"
def uidU : String := "u"
def pidOne : String := "p1"
def pidTwo : String := "p2"
def pidThree : String := "p3"
def ownerOne : String := "o1"
def ownerTwo : String := "o2"
def ownerThree : String := "o3"

/-- A feature with empty attributes, no geometry, and no failures. -/
def baseFeature : Feature :=
  { global_parcel_uid := ""
    county_parcel_id_num := ""
    owner_name := ""
    physical_address := ""
    mailing_address := ""
    acreage := PyValue.none
    property_value := PyValue.none
    land_type := ""
    deed_reference := ""
    owner_city := ""
    owner_state := ""
    owner_zip := ""
    property_details_link := ""
    tax_details_link := ""
    clerk_records_link := ""
    county := ""
    state := ""
    geometry := Option.none
    failWrite := false
    geomWriteFail := false }

/-- A failure-free, geometry-free feature with the given key and sample
attributes. -/
def fOk (uid pid owner : String) : Feature :=
  { baseFeature with
    global_parcel_uid := uid
    county_parcel_id_num := pid
    owner_name := owner }

/-- A feature whose database write raises an uncaught error. -/
def fFail (uid : String) : Feature :=
  { baseFeature with global_parcel_uid := uid, failWrite := true }

/-- Three distinct records in one batch; the middle one's write raises. -/
def featsRollback : List Feature :=
  [fOk uidA pidOne ownerOne, fFail uidB, fOk uidC pidThree ownerThree]

/-- Two features sharing one key with different county parcel numbers. -/
def featsDup : List Feature :=
  [fOk uidU pidOne ownerOne, fOk uidU pidTwo ownerTwo]

/-! Helper lemmas. -/

theorem clean_coords_go (cs : List Coord) : ∀ (acc : List Coord) (k : Nat),
    cs.foldl clean_coords_step (acc, k) =
      (acc ++ (cs.filter is_valid_coord).map normCoord,
       k + cs.countP fun c => !(is_valid_coord c)) := by
  induction cs with
  | nil => intro acc k; simp
  | cons c cs ih =>
    intro acc k
    by_cases h : is_valid_coord c = true
    · rw [List.foldl_cons, clean_coords_step, if_pos h, ih]
      simp [h, List.filter_cons, List.countP_cons]
    · have hb : is_valid_coord c = false := by revert h; cases is_valid_coord c <;> simp
      rw [List.foldl_cons, clean_coords_step, if_neg h, ih]
      simp [hb, List.filter_cons, List.countP_cons]
      omega

/-- Closed form of `clean_coords`: the order-preserving filter of the
valid coordinates (each truncated to two ordinates when longer), paired
with the number of dropped coordinates. -/
theorem clean_coords_eq (cs : List Coord) :
    clean_coords cs = ((cs.filter is_valid_coord).map normCoord,
      cs.countP fun c => !(is_valid_coord c)) := by
  simpa [clean_coords] using clean_coords_go cs [] 0

theorem is_valid_coord_tail (lon lat : PyFloat) (rest : List PyFloat) :
    is_valid_coord (lon :: lat :: rest) = is_valid_coord [lon, lat] := rfl

theorem normCoord_valid {c : Coord} (h : is_valid_coord c = true) :
    is_valid_coord (normCoord c) = true ∧ (normCoord c).length ≤ 2 := by
  match c with
  | [] => simp [is_valid_coord] at h
  | [x] => simp [is_valid_coord] at h
  | lon :: lat :: rest =>
    unfold normCoord
    by_cases hl : 2 < (lon :: lat :: rest : List PyFloat).length
    · rw [if_pos hl]
      have ht : (lon :: lat :: rest : List PyFloat).take 2 = [lon, lat] := by
        simp [List.take_succ_cons]
      rw [ht]
      exact ⟨by rw [← is_valid_coord_tail lon lat rest]; exact h, by simp⟩
    · rw [if_neg hl]
      refine ⟨h, ?_⟩
      simp only [List.length_cons] at hl ⊢
      omega

theorem clean_coords_fixed {l : List Coord}
    (h : ∀ c ∈ l, is_valid_coord c = true ∧ c.length ≤ 2) :
    clean_coords l = (l, 0) := by
  rw [clean_coords_eq]
  have hf : l.filter is_valid_coord = l :=
    List.filter_eq_self.2 fun a ha => by simp [(h a ha).1]
  have hm : (l.filter is_valid_coord).map normCoord = l := by
    rw [hf]
    rw [show l.map normCoord = l.map id from ?_, List.map_id]
    apply List.map_congr_left
    intro a ha
    have := (h a ha).2
    simp [normCoord, id]
    omega
  have hc : (l.countP fun c => !(is_valid_coord c)) = 0 := by
    rw [List.countP_eq_zero]
    intro a ha
    simp [(h a ha).1]
  rw [hm, hc]

/-! Claim theorems about the coordinate validator and ring cleaner. -/

/-- C7: `is_valid_coord` returns true exactly for coordinates with finite
first two ordinates, longitude in [-180, 180] and latitude in [-90, 90];
it returns false for a coordinate with fewer than 2 ordinates, a NaN or
infinite longitude or latitude, or an out-of-domain longitude or latitude.
It is a pure Lean function, so it has no side effects. -/
theorem is_valid_coord_characterization :
    (∀ c : Coord, is_valid_coord c = true ↔
        ∃ ql qa rest, c = PyFloat.finite ql :: PyFloat.finite qa :: rest ∧
          -180 ≤ ql ∧ ql ≤ 180 ∧ -90 ≤ qa ∧ qa ≤ 90) ∧
    (∀ c : Coord, c.length < 2 → is_valid_coord c = false) ∧
    (∀ (lon lat : PyFloat) (rest : List PyFloat),
        (lon.isNan || lat.isNan || lon.isInf || lat.isInf) = true →
        is_valid_coord (lon :: lat :: rest) = false) ∧
    (∀ (ql qa : ℚ) (rest : List PyFloat),
        (ql < -180 ∨ 180 < ql ∨ qa < -90 ∨ 90 < qa) →
        is_valid_coord (PyFloat.finite ql :: PyFloat.finite qa :: rest) = false) := by
  refine ⟨?_, ?_, ?_, ?_⟩
  · intro c
    match c with
    | [] => simp [is_valid_coord]
    | [x] => simp [is_valid_coord]
    | lon :: lat :: rest =>
      cases lon <;> cases lat <;>
        simp [is_valid_coord, PyFloat.isNan, PyFloat.isInf]
      case finite.finite ql qa =>
        constructor
        · intro hA
          exact ⟨ql, qa, ⟨rfl, rfl⟩, hA⟩
        · rintro ⟨ql2, qa2, ⟨rfl, rfl⟩, hA⟩
          exact hA
  · intro c h
    match c with
    | [] => rfl
    | [x] => rfl
    | a :: b :: r => simp at h; omega
  · intro lon lat rest h
    simp [is_valid_coord, h]
  · intro ql qa rest h
    simp only [is_valid_coord, PyFloat.isNan, PyFloat.isInf, Bool.or_self, Bool.or_false]
    rw [if_neg (by simp), if_pos h]

/-- C7 witness: the characterization applied at concrete coordinates. -/
theorem is_valid_coord_characterization_witness :
    is_valid_coord ([] : Coord) = false ∧
    is_valid_coord [PyFloat.nan, pf0] = false ∧
    is_valid_coord badCoord = false ∧
    is_valid_coord [pf0, pf0] = true :=
  ⟨is_valid_coord_characterization.2.1 [] (by simp),
   is_valid_coord_characterization.2.2.1 PyFloat.nan pf0 [] (by decide),
   is_valid_coord_characterization.2.2.2 200 0 [] (by norm_num),
   (is_valid_coord_characterization.1 [pf0, pf0]).2
     ⟨0, 0, [], rfl, by norm_num, by norm_num, by norm_num, by norm_num⟩⟩

/-- C9: `_parse_numeric` is total and maps Python `None`, the empty
string, the literal strings for null and NaN, and every value whose
`float` conversion raises, to an absent value; in particular an acreage of
the string holding the three letters n-a-n parses to `None`. -/
theorem parse_numeric_never_raises :
    (∀ fc : FloatConv, parse_numeric fc PyValue.none = Option.none) ∧
    (∀ (fc : FloatConv) (s : String), (s == "" || s == "null" || s == "nan") = true →
        parse_numeric fc (PyValue.str s) = Option.none) ∧
    (∀ (fc : FloatConv) (v : PyValue), fc v = Option.none →
        parse_numeric fc v = Option.none) := by
  refine ⟨fun fc => rfl, ?_, ?_⟩
  · intro fc s h
    simp [parse_numeric, isNullLike, h]
  · intro fc v h
    unfold parse_numeric
    split
    · rfl
    · exact h

/-- C9 witness: the acreage value from the spec scenario and a failing
conversion. -/
theorem parse_numeric_never_raises_witness :
    parse_numeric fcNone (PyValue.str sNan) = Option.none ∧
    parse_numeric fcNone (PyValue.str sPoint) = Option.none :=
  ⟨parse_numeric_never_raises.2.1 fcNone sNan (by decide),
   parse_numeric_never_raises.2.2 fcNone (PyValue.str sPoint) rfl⟩

/-- C10: `_validate_and_clean_coordinates` passes every geometry that is
neither Polygon nor MultiPolygon through unchanged; in particular a Point
whose coordinate fails the finiteness/domain checks is returned as is,
with no cleaning applied. -/
theorem validate_and_clean_passes_non_polygonal :
    (∀ (sh : Shapely) (t : String) (cs : List Coord),
        t ≠ "Polygon" → t ≠ "MultiPolygon" →
        validate_and_clean sh (.other t cs) = some (.other t cs)) ∧
    (∀ (sh : Shapely) (c : Coord) (rest : List Coord),
        is_valid_coord c = false →
        validate_and_clean sh (.other sPoint (c :: rest)) =
          some (.other sPoint (c :: rest))) := by
  constructor
  · intro sh t cs h1 h2
    simp [validate_and_clean, Geometry.geomTypeName, h1, h2]
  · intro sh c rest _
    simp [validate_and_clean, Geometry.geomTypeName, sPoint]

/-- C10 witness: a Point with an out-of-domain longitude passes through. -/
theorem validate_and_clean_passes_non_polygonal_witness :
    validate_and_clean shAll (.other sPoint [badCoord]) =
      some (.other sPoint [badCoord]) :=
  validate_and_clean_passes_non_polygonal.2 shAll badCoord [] (by decide)

theorem interiors_foldl (rings : List (List Coord)) :
    ∀ acc : List (List Coord),
    rings.foldl interiorStep acc =
      acc ++ rings.filterMap fun ring =>
        if 4 ≤ (clean_coords ring).1.length then some (clean_coords ring).1
        else Option.none := by
  induction rings with
  | nil => intro acc; simp
  | cons r rs ih =>
    intro acc
    rw [List.foldl_cons, List.filterMap_cons]
    by_cases h : 4 ≤ (clean_coords r).1.length
    · rw [show interiorStep acc r = acc ++ [(clean_coords r).1] from by
        simp [interiorStep, h]]
      rw [ih, if_pos h]
      simp
    · rw [show interiorStep acc r = acc from by simp [interiorStep, h]]
      rw [ih, if_neg h]

/-- C5: `clean_coords` is the order-preserving filter keeping exactly the
valid coordinates (each truncated to x, y when it carries more ordinates)
and reports the number dropped; in `_validate_and_clean_coordinates`, an
exterior ring left with fewer than 4 points makes the whole Polygon fail,
while an interior ring left with fewer than 4 points is merely dropped
from the reassembled polygon. -/
theorem clean_coords_order_preserving_filter :
    (∀ cs : List Coord, clean_coords cs =
        ((cs.filter is_valid_coord).map normCoord,
         cs.countP fun c => !(is_valid_coord c))) ∧
    (∀ (sh : Shapely) (p : Poly), (cleanedExterior p).length < 4 →
        validate_and_clean sh (.polygon p) = Option.none) ∧
    (∀ (sh : Shapely) (p : Poly), 4 ≤ (cleanedExterior p).length →
        sh.is_valid (.polygon (cleanedCandidate p)) = true →
        validate_and_clean sh (.polygon p) = some (.polygon (cleanedCandidate p))) := by
  refine ⟨clean_coords_eq, ?_, ?_⟩
  · intro sh p h
    simp only [validate_and_clean, Geometry.geomTypeName, if_pos]
    unfold cleanPolyCore
    rw [if_pos (by simpa [cleanedExterior] using h)]
    rfl
  · intro sh p h hv
    simp only [validate_and_clean, Geometry.geomTypeName, if_pos]
    unfold cleanPolyCore
    rw [if_neg (by simp only [cleanedExterior] at h; omega)]
    rw [interiors_foldl]
    simp only [List.nil_append]
    have hcand : (⟨(clean_coords p.exterior).1,
        p.interiors.filterMap fun ring =>
          if 4 ≤ (clean_coords ring).1.length then some (clean_coords ring).1
          else Option.none⟩ : Poly) = cleanedCandidate p := rfl
    rw [hcand, if_pos hv]
    rfl

/-- C5 witness: a polygon whose exterior keeps 3 points fails; a polygon
with a degenerate hole keeps its exterior and drops the hole. -/
theorem clean_coords_order_preserving_filter_witness :
    validate_and_clean shAll (.polygon polyShortExt) = Option.none ∧
    validate_and_clean shAll (.polygon polySmallHole) =
      some (.polygon (cleanedCandidate polySmallHole)) :=
  ⟨clean_coords_order_preserving_filter.2.1 shAll polyShortExt (by decide),
   clean_coords_order_preserving_filter.2.2 shAll polySmallHole (by decide) rfl⟩

/-- C6 counterexample: a closed ring of 4 coordinates, all valid but each
carrying a z ordinate, satisfies the claim's hypotheses yet is changed by
`clean_coords` (the z ordinates are stripped), so cleaning an already
clean ring does not always return it unchanged. -/
theorem clean_coords_not_identity_on_3d_ring :
    (∀ c ∈ ring3d, is_valid_coord c = true) ∧ 4 ≤ ring3d.length ∧
    ring3d.head? = ring3d.getLast? ∧ clean_coords ring3d ≠ (ring3d, 0) := by
  refine ⟨by decide, by decide, by decide, by decide⟩

/-- C6 (amended): on rings of at least 4 valid two-ordinate coordinates
with matching endpoints, `clean_coords` is the identity with zero dropped;
a ring all of whose coordinates are valid but 3-D is truncated to 2-D
instead of returned unchanged, and on every ring whatsoever applying
`clean_coords` twice equals applying it once (the second pass keeps the
first pass's output unchanged and drops nothing). -/
theorem clean_coords_idempotent :
    (∀ r : List Coord, (∀ c ∈ r, is_valid_coord c = true ∧ c.length = 2) →
        4 ≤ r.length → r.head? = r.getLast? → clean_coords r = (r, 0)) ∧
    (∀ r : List Coord, clean_coords (clean_coords r).1 = ((clean_coords r).1, 0)) := by
  constructor
  · intro r h _ _
    exact clean_coords_fixed fun c hc => ⟨(h c hc).1, le_of_eq (h c hc).2⟩
  · intro r
    apply clean_coords_fixed
    intro c hc
    rw [clean_coords_eq] at hc
    simp only at hc
    obtain ⟨c0, hc0, rfl⟩ := List.mem_map.1 hc
    have hv : is_valid_coord c0 = true := (List.mem_filter.1 hc0).2
    exact normCoord_valid hv

/-- C6 witness: a valid closed 2-D square ring is a fixed point of
`clean_coords`. -/
theorem clean_coords_idempotent_witness :
    clean_coords ring2d = (ring2d, 0) :=
  clean_coords_idempotent.1 ring2d (by decide) (by decide) (by decide)

theorem repair_zero_area_aux (sh : Shapely) (g m : Geometry)
    (hm : sh.make_valid g = m) (hv : sh.is_valid m = false)
    (hz : zeroAreaGeom sh m = true) :
    repair_geometry sh g = Option.none := by
  have heps : (0 : ℚ) < eps := by norm_num [eps]
  cases m with
  | polygon p =>
    have ha : sh.area (.polygon p) = 0 := by
      simpa [zeroAreaGeom, Geometry.geomTypeName] using hz
    simp [repair_geometry, hm, hv, Geometry.geomTypeName, ha, heps]
  | multiPolygon parts =>
    have ha : ∀ q ∈ parts, sh.area (.polygon q) = 0 := by
      simpa [zeroAreaGeom, Geometry.geomTypeName] using hz
    have hfil : (parts.filter fun part =>
        sh.is_valid (.polygon part) && decide (eps < sh.area (.polygon part))) = [] := by
      rw [List.filter_eq_nil_iff]
      intro q hq
      simp [ha q hq]
      intro _
      linarith
    simp [repair_geometry, hm, hv, Geometry.geomTypeName, hfil]
  | other t cs =>
    by_cases hp : t = "Polygon"
    · subst hp
      have ha : sh.area (.other "Polygon" cs) = 0 := by
        simpa [zeroAreaGeom, Geometry.geomTypeName] using hz
      simp [repair_geometry, hm, hv, Geometry.geomTypeName, ha, heps]
    · by_cases hmp : t = "MultiPolygon"
      · subst hmp
        simp [repair_geometry, hm, hv, Geometry.geomTypeName]
      · simp [repair_geometry, hm, hv, Geometry.geomTypeName, hp, hmp]

/-- C3: an invalid geometry of zero area is rejected by
`_repair_geometry` whenever the `make_valid` canonicalization leaves it
invalid (zero area meaning: a Polygon of area 0, a MultiPolygon all of
whose parts have area 0, or any non-polygonal type); more specifically, a
still-invalid Polygon whose area is below the near-zero epsilon `1e-10`
is rejected outright rather than salvaged. -/
theorem repair_zero_area_returns_none :
    (∀ (sh : Shapely) (g : Geometry), sh.is_valid g = false →
        sh.is_valid (sh.make_valid g) = false →
        zeroAreaGeom sh (sh.make_valid g) = true →
        repair_geometry sh g = Option.none) ∧
    (∀ (sh : Shapely) (g : Geometry),
        sh.is_valid (sh.make_valid g) = false →
        (sh.make_valid g).geomTypeName = "Polygon" →
        sh.area (sh.make_valid g) < eps →
        repair_geometry sh g = Option.none) := by
  constructor
  · intro sh g _ hv hz
    exact repair_zero_area_aux sh g (sh.make_valid g) rfl hv hz
  · intro sh g hv ht ha
    simp [repair_geometry, hv, ht, ha]

/-- C3 witness: with an oracle finding every geometry invalid and of area
0, both the zero-area rejection and the below-epsilon Polygon rejection
fire at concrete geometries. -/
theorem repair_zero_area_returns_none_witness :
    repair_geometry shNone (.polygon polyMixed) = Option.none ∧
    repair_geometry shNone (.other sPolygonTag []) = Option.none :=
  ⟨repair_zero_area_returns_none.1 shNone (.polygon polyMixed) rfl rfl (by decide),
   repair_zero_area_returns_none.2 shNone (.other sPolygonTag []) rfl rfl
     (by norm_num [shNone, shAll, eps])⟩

theorem strip_z_two (coords : List Coord) :
    ∀ c ∈ strip_z coords, c.length ≤ 2 := by
  intro c hc
  obtain ⟨c0, -, rfl⟩ := List.mem_map.1 hc
  simp [List.length_take]

theorem stripPoly_2d (p : Poly) : poly2d (stripPoly p) = true := by
  rw [poly2d, List.all_eq_true]
  intro c hc
  rcases List.mem_append.1 hc with hce | hci
  · simpa using strip_z_two p.exterior c hce
  · obtain ⟨ring, hring, hcr⟩ := List.mem_flatten.1 hci
    obtain ⟨r0, -, rfl⟩ := List.mem_map.1 hring
    simpa using strip_z_two r0 c hcr

theorem mpStrip_fold_2d (sh : Shapely) (parts : List Poly) :
    ∀ acc : List Poly, (∀ x ∈ acc, poly2d x = true) →
    ∀ x ∈ parts.foldl (mpStripStep sh) acc, poly2d x = true := by
  induction parts with
  | nil => intro acc hacc x hx; exact hacc x hx
  | cons p ps ih =>
    intro acc hacc x hx
    rw [List.foldl_cons] at hx
    refine ih (mpStripStep sh acc p) ?_ x hx
    intro y hy
    unfold mpStripStep at hy
    by_cases hc : (sh.is_valid (.polygon (stripPoly p)) &&
        decide (4 ≤ (strip_z p.exterior).length)) = true
    · rw [if_pos hc] at hy
      rcases List.mem_append.1 hy with hl | hr
      · exact hacc y hl
      · have : y = stripPoly p := by simpa using hr
        rw [this]
        exact stripPoly_2d p
    · rw [if_neg hc] at hy
      exact hacc y hy

/-- C4 counterexample: a Polygon with a fully 2-D exterior but a 3-D
interior ring is returned unchanged by `_convert_3d_to_2d` (the 3-D test
inspects only the exterior ring), so the result still carries a
coordinate with a third ordinate, contradicting the claim that every
returned geometry is stripped in every ring. -/
theorem convert_3d_to_2d_keeps_interior_z :
    convert_3d_to_2d shAll (.polygon polyMixed) = some (.polygon polyMixed) ∧
    geom2d (.polygon polyMixed) = false := by
  exact ⟨rfl, rfl⟩

/-- C4 (amended): `_convert_3d_to_2d` keys its 3-D test on exterior rings
only.  A Polygon with a 3-D exterior is stripped in every ring (exterior
and interiors alike) and the result carries no third ordinate; a Polygon
whose exterior is 2-D is returned unchanged, which is a true no-op for
fully 2-D inputs but leaves a z ordinate on interior rings that carry
one.  A MultiPolygon all of whose part exteriors are 2-D is likewise
returned unchanged, and when some part exterior is 3-D every geometry the
conversion returns is fully 2-D (parts that fail validity or the 4-point
threshold after stripping are dropped). -/
theorem convert_3d_to_2d_exterior_driven :
    (∀ (sh : Shapely) (p : Poly), is_3d p.exterior = true →
        convert_3d_to_2d sh (.polygon p) = some (.polygon (stripPoly p)) ∧
        geom2d (.polygon (stripPoly p)) = true) ∧
    (∀ (sh : Shapely) (p : Poly), is_3d p.exterior = false →
        convert_3d_to_2d sh (.polygon p) = some (.polygon p)) ∧
    (∀ (sh : Shapely) (parts : List Poly),
        (parts.all fun p => !(is_3d p.exterior)) = true →
        convert_3d_to_2d sh (.multiPolygon parts) = some (.multiPolygon parts)) ∧
    (∀ (sh : Shapely) (parts : List Poly) (g2 : Geometry),
        (parts.all fun p => !(is_3d p.exterior)) = false →
        convert_3d_to_2d sh (.multiPolygon parts) = some g2 →
        geom2d g2 = true) := by
  refine ⟨?_, ?_, ?_, ?_⟩
  · intro sh p h
    exact ⟨by simp [convert_3d_to_2d, Geometry.geomTypeName, h],
      stripPoly_2d p⟩
  · intro sh p h
    simp [convert_3d_to_2d, Geometry.geomTypeName, h]
  · intro sh parts h
    simp [convert_3d_to_2d, Geometry.geomTypeName, h]
  · intro sh parts g2 h hg
    simp only [convert_3d_to_2d, Geometry.geomTypeName, if_true] at hg
    rw [h] at hg
    simp only [Bool.false_eq_true, if_false] at hg
    by_cases he : (parts.foldl (mpStripStep sh) []).isEmpty = true
    · rw [if_pos he] at hg
      exact absurd hg (by simp)
    · rw [if_neg he] at hg
      injection hg with hg
      subst hg
      show (parts.foldl (mpStripStep sh) []).all poly2d = true
      rw [List.all_eq_true]
      intro x hx
      exact mpStrip_fold_2d sh parts [] (by simp) x hx

/-- C4 witness: a Polygon with 3-D rings is fully stripped; the mixed
polygon with a 2-D exterior is returned unchanged. -/
theorem convert_3d_to_2d_exterior_driven_witness :
    convert_3d_to_2d shAll (.polygon poly3d) = some (.polygon (stripPoly poly3d)) ∧
    convert_3d_to_2d shAll (.polygon polyMixed) = some (.polygon polyMixed) :=
  ⟨(convert_3d_to_2d_exterior_driven.1 shAll poly3d (by decide)).1,
   convert_3d_to_2d_exterior_driven.2.1 shAll polyMixed (by decide)⟩

/-- C8 counterexample: with a null geometry and the hard-coded debug
parcel id, `safe_geometry_to_wkb` raises (the debug block dereferences the
geometry before the null check) instead of returning none, so the function
is not total on all inputs. -/
theorem safe_geometry_to_wkb_raises_on_debug_id :
    safe_geometry_to_wkb shAll Option.none (some debugParcelId) = .error () := by
  rfl

/-- C8 (amended): `safe_geometry_to_wkb` returns none (never an
exception) for a null geometry whenever the parcel id is not the
hard-coded debug id; for every non-null geometry it returns `.ok` of the
`try`-block result, which is none for an empty geometry, none when the
input is invalid and unrepairable, and none whenever WKB serialization
fails; the sole exception escape is the debug id combined with a null
geometry. -/
theorem safe_geometry_to_wkb_total_on_regular_ids :
    (∀ (sh : Shapely) (pid : Option String), pid ≠ some debugParcelId →
        safe_geometry_to_wkb sh Option.none pid = .ok Option.none) ∧
    (∀ (sh : Shapely) (g : Geometry) (pid : Option String),
        safe_geometry_to_wkb sh (some g) pid = .ok (wkbBody sh g)) ∧
    (∀ (sh : Shapely) (g : Geometry), sh.is_empty g = true →
        wkbBody sh g = Option.none) ∧
    (∀ (sh : Shapely) (g : Geometry), sh.is_empty g = false →
        sh.is_valid g = false → repair_geometry sh g = Option.none →
        wkbBody sh g = Option.none) ∧
    (∀ (sh : Shapely) (g : Geometry), (∀ h : Geometry, sh.wkbDumps h = Option.none) →
        wkbBody sh g = Option.none) := by
  refine ⟨?_, ?_, ?_, ?_, ?_⟩
  · intro sh pid h
    simp [safe_geometry_to_wkb, h]
  · intro sh g pid
    simp [safe_geometry_to_wkb]
  · intro sh g h
    simp [wkbBody, h]
  · intro sh g h1 h2 h3
    simp [wkbBody, h1, h2, h3]
  · intro sh g hw
    unfold wkbBody
    split
    · rfl
    · repeat' split
      all_goals simp only [hw]
      all_goals (repeat' split)
      all_goals rfl

/-- C8 witness: totality facts applied at concrete inputs, including a
null geometry with a regular parcel id and an unrepairable invalid
geometry. -/
theorem safe_geometry_to_wkb_total_on_regular_ids_witness :
    safe_geometry_to_wkb shAll Option.none Option.none = .ok Option.none ∧
    safe_geometry_to_wkb shNone (some (.polygon polyMixed)) (some debugParcelId) =
      .ok (wkbBody shNone (.polygon polyMixed)) ∧
    wkbBody shNone (.polygon polyMixed) = Option.none :=
  ⟨safe_geometry_to_wkb_total_on_regular_ids.1 shAll Option.none (by simp),
   safe_geometry_to_wkb_total_on_regular_ids.2.1 shNone (.polygon polyMixed)
     (some debugParcelId),
   safe_geometry_to_wkb_total_on_regular_ids.2.2.2.1 shNone (.polygon polyMixed)
     rfl rfl
     (by
       have h0 : (0 : ℚ) < eps := by norm_num [eps]
       simp [repair_geometry, shNone, shAll, Geometry.geomTypeName, h0])⟩

/-- C1 (code bug): three records with distinct keys processed in one
batch, the middle one's write raising.  `conn.rollback()` discards the
whole transaction, so the first record's uncommitted insert is lost even
though it precedes the failure and is counted successful: the committed
table holds only the third record, while the claim (and spec section 4.7)
requires the first record to be committed and only the failing record's
statements to be rolled back.  The engine still marks the failing record
failed and continues with the next record. -/
theorem update_parcel_data_rollback_discards_batch :
    ((update_parcel_data shAll fcNone [] featsRollback).committed.map
        fun r => r.global_parcel_uid) = [uidC] ∧
    (update_parcel_data shAll fcNone [] featsRollback).failed_parcel_ids = [uidB] ∧
    (update_parcel_data shAll fcNone [] featsRollback).successful_parcel_ids =
      [uidA, uidC] ∧
    (update_parcel_data shAll fcNone [] featsRollback).successful_inserts = 2 ∧
    (update_parcel_data shAll fcNone [] featsRollback).skipped_rows = 1 :=
  ⟨rfl, rfl, rfl, rfl, rfl⟩

/-- C2 counterexample: two features sharing one key with different county
parcel numbers, no failures.  Exactly one row is persisted and its owner
comes from the last-processed feature, but its `county_parcel_id_num`
still holds the first feature's value (the UPDATE statement never sets
that column), so the persisted attribute values are not all taken from
the last-processed feature as the claim states. -/
theorem upsert_duplicate_keeps_first_parcel_id_num :
    ((update_parcel_data shAll fcNone [] featsDup).committed.map
        fun r => (r.global_parcel_uid, r.county_parcel_id_num, r.owner_name)) =
      [(uidU, pidOne, ownerTwo)] ∧
    pidOne ≠ pidTwo :=
  ⟨rfl, by decide⟩

/-! Machinery for the duplicate-identifier theorem: with no write
failures, the table evolves by `upsertW` and the tracking pair by
`trackStep`, independently of the batch commits. -/

theorem safe_geometry_some (sh : Shapely) (g : Geometry) (pid : Option String) :
    safe_geometry_to_wkb sh (some g) pid = .ok (wkbBody sh g) := by
  simp [safe_geometry_to_wkb]

theorem writePhase_work (fc : FloatConv) (st : UState) (f : Feature) (uid : String)
    (rowFound : Bool) (w : Option (List Nat))
    (hfw : f.failWrite = false) (hgw : f.geomWriteFail = false) :
    (writePhase fc st f uid rowFound w).work =
      if rowFound then
        updateWhere st.work uid fun r =>
          match w with
          | some wkb => applySpatialUpdate fc f wkb r
          | Option.none => applyNonSpatialUpdate fc f r
      else
        st.work ++ [match w with
          | some wkb => spatialInsertRow fc f wkb
          | Option.none => nonSpatialInsertRow fc f] := by
  unfold writePhase
  rw [hfw]
  cases rowFound <;> cases w <;> simp [hgw]

theorem writePhase_committed (fc : FloatConv) (st : UState) (f : Feature) (uid : String)
    (rowFound : Bool) (w : Option (List Nat)) :
    (writePhase fc st f uid rowFound w).committed = st.committed := by
  unfold writePhase recordFailure
  repeat' split
  all_goals rfl

theorem writePhase_count (fc : FloatConv) (st : UState) (f : Feature) (uid : String)
    (rowFound : Bool) (w : Option (List Nat)) :
    (writePhase fc st f uid rowFound w).parcel_id_count = st.parcel_id_count := by
  unfold writePhase recordFailure
  repeat' split
  all_goals rfl

theorem writePhase_dup (fc : FloatConv) (st : UState) (f : Feature) (uid : String)
    (rowFound : Bool) (w : Option (List Nat)) :
    (writePhase fc st f uid rowFound w).duplicate_parcel_ids = st.duplicate_parcel_ids := by
  unfold writePhase recordFailure
  repeat' split
  all_goals rfl

theorem processRecord_work (sh : Shapely) (fc : FloatConv) (st : UState) (f : Feature)
    (hfw : f.failWrite = false) (hgw : f.geomWriteFail = false) :
    (processRecord sh fc st f).work = upsertW sh fc st.work f := by
  cases hg : f.geometry with
  | none =>
    simp [processRecord, hg, writePhase, hfw, hgw, trackIds, upsertW, stepRow,
      geomResolve]
    split <;> rfl
  | some g =>
    by_cases he : sh.is_empty g = true
    · simp [processRecord, hg, he, writePhase, hfw, hgw, trackIds, upsertW, stepRow,
        geomResolve]
      split <;> rfl
    · cases hw : wkbBody sh g with
      | none =>
        simp [processRecord, hg, he, safe_geometry_some, hw, writePhase, hfw, hgw,
          trackIds, upsertW, stepRow, geomResolve]
        split <;> rfl
      | some wkb =>
        simp [processRecord, hg, he, safe_geometry_some, hw, writePhase, hfw, hgw,
          trackIds, upsertW, stepRow, geomResolve]
        split <;> rfl

theorem processRecord_committed (sh : Shapely) (fc : FloatConv) (st : UState)
    (f : Feature) :
    (processRecord sh fc st f).committed = st.committed := by
  cases hg : f.geometry with
  | none =>
    simp [processRecord, hg, writePhase_committed, trackIds]
  | some g =>
    by_cases he : sh.is_empty g = true
    · simp [processRecord, hg, he, writePhase_committed, trackIds]
    · cases hw : wkbBody sh g with
      | none =>
        simp [processRecord, hg, he, safe_geometry_some, hw, writePhase_committed,
          recordFailure, trackIds]
      | some wkb =>
        simp [processRecord, hg, he, safe_geometry_some, hw, writePhase_committed,
          recordFailure, trackIds]

theorem processRecord_count (sh : Shapely) (fc : FloatConv) (st : UState)
    (f : Feature) :
    (processRecord sh fc st f).parcel_id_count =
      bumpCount st.parcel_id_count f.global_parcel_uid := by
  cases hg : f.geometry with
  | none =>
    simp [processRecord, hg, writePhase_count, trackIds]
  | some g =>
    by_cases he : sh.is_empty g = true
    · simp [processRecord, hg, he, writePhase_count, trackIds]
    · cases hw : wkbBody sh g with
      | none =>
        simp [processRecord, hg, he, safe_geometry_some, hw, writePhase_count,
          recordFailure, trackIds]
      | some wkb =>
        simp [processRecord, hg, he, safe_geometry_some, hw, writePhase_count,
          recordFailure, trackIds]

theorem processRecord_dup (sh : Shapely) (fc : FloatConv) (st : UState)
    (f : Feature) :
    (processRecord sh fc st f).duplicate_parcel_ids =
      (trackStep (st.parcel_id_count, st.duplicate_parcel_ids)
        f.global_parcel_uid).2 := by
  cases hg : f.geometry with
  | none =>
    simp [processRecord, hg, writePhase_dup, trackIds, trackStep]
  | some g =>
    by_cases he : sh.is_empty g = true
    · simp [processRecord, hg, he, writePhase_dup, trackIds, trackStep]
    · cases hw : wkbBody sh g with
      | none =>
        simp [processRecord, hg, he, safe_geometry_some, hw, writePhase_dup,
          recordFailure, trackIds, trackStep]
      | some wkb =>
        simp [processRecord, hg, he, safe_geometry_some, hw, writePhase_dup,
          recordFailure, trackIds, trackStep]


theorem foldl_processRecord_work (sh : Shapely) (fc : FloatConv) :
    ∀ (l : List Feature),
    (∀ f ∈ l, f.failWrite = false ∧ f.geomWriteFail = false) →
    ∀ st : UState,
    (l.foldl (processRecord sh fc) st).work = l.foldl (upsertW sh fc) st.work := by
  intro l
  induction l with
  | nil => intro _ st; rfl
  | cons f l ih =>
    intro hok st
    rw [List.foldl_cons, List.foldl_cons]
    rw [ih (fun f2 h2 => hok f2 (List.mem_cons_of_mem f h2))]
    rw [processRecord_work sh fc st f (hok f (List.mem_cons_self f l)).1
      (hok f (List.mem_cons_self f l)).2]

theorem foldl_processRecord_committed (sh : Shapely) (fc : FloatConv) :
    ∀ (l : List Feature) (st : UState),
    (l.foldl (processRecord sh fc) st).committed = st.committed := by
  intro l
  induction l with
  | nil => intro st; rfl
  | cons f l ih =>
    intro st
    rw [List.foldl_cons, ih, processRecord_committed]

theorem foldl_processRecord_track (sh : Shapely) (fc : FloatConv) :
    ∀ (l : List Feature) (st : UState),
    ((l.foldl (processRecord sh fc) st).parcel_id_count,
     (l.foldl (processRecord sh fc) st).duplicate_parcel_ids) =
      l.foldl (fun cd f => trackStep cd f.global_parcel_uid)
        (st.parcel_id_count, st.duplicate_parcel_ids) := by
  intro l
  induction l with
  | nil => intro st; rfl
  | cons f l ih =>
    intro st
    rw [List.foldl_cons, List.foldl_cons, ih]
    have h1 := processRecord_count sh fc st f
    have h2 := processRecord_dup sh fc st f
    rw [h1, h2]
    rfl

theorem batches_work (sh : Shapely) (fc : FloatConv) :
    ∀ (bl : List (List Feature)),
    (∀ f ∈ bl.flatten, f.failWrite = false ∧ f.geomWriteFail = false) →
    ∀ st : UState,
    (bl.foldl (runBatch sh fc) st).work = (bl.flatten).foldl (upsertW sh fc) st.work := by
  intro bl
  induction bl with
  | nil => intro _ st; rfl
  | cons b bl ih =>
    intro hok st
    rw [List.foldl_cons, List.flatten_cons, List.foldl_append]
    rw [ih (fun f h => hok f (by simp [h]))]
    have : (runBatch sh fc st b).work = b.foldl (upsertW sh fc) st.work := by
      unfold runBatch
      exact foldl_processRecord_work sh fc b (fun f h => hok f (by simp [h])) st
    rw [this]

theorem batches_track (sh : Shapely) (fc : FloatConv) :
    ∀ (bl : List (List Feature)) (st : UState),
    ((bl.foldl (runBatch sh fc) st).parcel_id_count,
     (bl.foldl (runBatch sh fc) st).duplicate_parcel_ids) =
      (bl.flatten).foldl (fun cd f => trackStep cd f.global_parcel_uid)
        (st.parcel_id_count, st.duplicate_parcel_ids) := by
  intro bl
  induction bl with
  | nil => intro st; rfl
  | cons b bl ih =>
    intro st
    rw [List.foldl_cons, List.flatten_cons, List.foldl_append]
    rw [ih]
    have : ((runBatch sh fc st b).parcel_id_count,
        (runBatch sh fc st b).duplicate_parcel_ids) =
        b.foldl (fun cd f => trackStep cd f.global_parcel_uid)
          (st.parcel_id_count, st.duplicate_parcel_ids) := by
      unfold runBatch
      exact foldl_processRecord_track sh fc b st
    rw [show (runBatch sh fc st b).parcel_id_count =
        (b.foldl (fun cd f => trackStep cd f.global_parcel_uid)
          (st.parcel_id_count, st.duplicate_parcel_ids)).1 from by rw [← this],
      show (runBatch sh fc st b).duplicate_parcel_ids =
        (b.foldl (fun cd f => trackStep cd f.global_parcel_uid)
          (st.parcel_id_count, st.duplicate_parcel_ids)).2 from by rw [← this]]

theorem batches_committed_last (sh : Shapely) (fc : FloatConv) :
    ∀ (bl : List (List Feature)), bl ≠ [] → ∀ st : UState,
    (bl.foldl (runBatch sh fc) st).committed = (bl.foldl (runBatch sh fc) st).work := by
  intro bl
  induction bl with
  | nil => intro h; exact absurd rfl h
  | cons b bl ih =>
    intro _ st
    rw [List.foldl_cons]
    cases hb : bl with
    | nil =>
      simp only [List.foldl_nil]
      unfold runBatch
      rfl
    | cons b2 bl2 =>
      rw [← hb]
      exact ih (by rw [hb]; exact List.cons_ne_nil b2 bl2) (runBatch sh fc st b)

theorem toBatchesGo_flatten {α : Type} (n : Nat) :
    ∀ (fuel : Nat) (l : List α), l.length ≤ fuel →
    (toBatchesGo n fuel l).flatten = l := by
  intro fuel
  induction fuel with
  | zero =>
    intro l hl
    cases l with
    | nil => rfl
    | cons x xs => simp at hl
  | succ fuel ih =>
    intro l hl
    cases l with
    | nil => rfl
    | cons x xs =>
      rw [toBatchesGo, List.flatten_cons]
      rw [ih (xs.drop (n - 1)) (by
        have := List.length_drop (n - 1) xs
        simp only [List.length_cons] at hl
        omega)]
      rw [List.cons_append, List.take_append_drop]

theorem toBatches_flatten {α : Type} (n : Nat) (l : List α) :
    (toBatches n l).flatten = l :=
  toBatchesGo_flatten n l.length l le_rfl

theorem toBatches_ne_nil {α : Type} (n : Nat) (l : List α) (h : l ≠ []) :
    toBatches n l ≠ [] := by
  cases l with
  | nil => exact absurd rfl h
  | cons x xs =>
    unfold toBatches
    rw [show (x :: xs : List α).length = xs.length + 1 from rfl, toBatchesGo]
    exact List.cons_ne_nil _ _

theorem update_parcel_data_work (sh : Shapely) (fc : FloatConv) (table : List Row)
    (features : List Feature)
    (hok : ∀ f ∈ features, f.failWrite = false ∧ f.geomWriteFail = false) :
    (update_parcel_data sh fc table features).work =
      features.foldl (upsertW sh fc) table := by
  unfold update_parcel_data
  rw [batches_work sh fc _ (by rw [toBatches_flatten]; exact hok)]
  rw [toBatches_flatten]
  rfl

theorem update_parcel_data_committed (sh : Shapely) (fc : FloatConv) (table : List Row)
    (features : List Feature) (hne : features ≠ [])
    (hok : ∀ f ∈ features, f.failWrite = false ∧ f.geomWriteFail = false) :
    (update_parcel_data sh fc table features).committed =
      features.foldl (upsertW sh fc) table := by
  rw [← update_parcel_data_work sh fc table features hok]
  unfold update_parcel_data
  exact batches_committed_last sh fc _ (toBatches_ne_nil batchSize features hne) _

theorem update_parcel_data_track (sh : Shapely) (fc : FloatConv) (table : List Row)
    (features : List Feature) :
    ((update_parcel_data sh fc table features).parcel_id_count,
     (update_parcel_data sh fc table features).duplicate_parcel_ids) =
      features.foldl (fun cd f => trackStep cd f.global_parcel_uid) ([], []) := by
  unfold update_parcel_data
  rw [batches_track]
  rw [toBatches_flatten]
  rfl

theorem stepRow_update_uid (sh : Shapely) (fc : FloatConv) (r : Row) (f : Feature) :
    (stepRow sh fc (some r) f).global_parcel_uid = r.global_parcel_uid := by
  unfold stepRow
  cases geomResolve sh f <;>
    simp [applySpatialUpdate, applyNonSpatialUpdate]

theorem stepRow_insert_uid (sh : Shapely) (fc : FloatConv) (f : Feature) :
    (stepRow sh fc Option.none f).global_parcel_uid = f.global_parcel_uid := by
  unfold stepRow
  cases geomResolve sh f <;>
    simp [spatialInsertRow, nonSpatialInsertRow]

theorem findRow_cons (r : Row) (t : List Row) (u : String) :
    findRow (r :: t) u =
      if r.global_parcel_uid == u then some r else findRow t u := by
  unfold findRow
  rw [List.find?_cons]
  split <;> simp_all

theorem findRow_eq_uid {t : List Row} {u : String} {r : Row}
    (h : findRow t u = some r) : r.global_parcel_uid = u := by
  have := List.find?_some h
  simpa using this

theorem findRow_updateWhere (t : List Row) (x : String) (g : Row → Row)
    (hg : ∀ r, (g r).global_parcel_uid = r.global_parcel_uid) (u : String) :
    findRow (updateWhere t x g) u =
      (findRow t u).map fun r => if r.global_parcel_uid == x then g r else r := by
  induction t with
  | nil => rfl
  | cons r t ih =>
    rw [show updateWhere (r :: t) x g =
        (if r.global_parcel_uid == x then g r else r) :: updateWhere t x g from rfl]
    rw [findRow_cons, findRow_cons]
    have huid : (if r.global_parcel_uid == x then g r else r).global_parcel_uid =
        r.global_parcel_uid := by
      split
      · exact hg r
      · rfl
    by_cases hru : (r.global_parcel_uid == u) = true
    · have hc : ((if r.global_parcel_uid == x then g r else r).global_parcel_uid == u)
          = true := by rw [huid]; exact hru
      rw [if_pos hc, if_pos hru, Option.map_some']
    · have hc : ¬ ((if r.global_parcel_uid == x then g r else r).global_parcel_uid == u)
          = true := by rw [huid]; exact hru
      rw [if_neg hc, if_neg hru]
      exact ih

theorem findRow_append_single (t : List Row) (r0 : Row) (u : String) :
    findRow (t ++ [r0]) u =
      match findRow t u with
      | some r => some r
      | Option.none => if r0.global_parcel_uid == u then some r0 else Option.none := by
  induction t with
  | nil =>
    rw [List.nil_append, findRow_cons]
    rfl
  | cons r t ih =>
    rw [List.cons_append, findRow_cons, findRow_cons]
    by_cases hru : (r.global_parcel_uid == u) = true
    · rw [if_pos hru, if_pos hru]
    · rw [if_neg hru, if_neg hru, ih]

theorem findRow_upsertW (sh : Shapely) (fc : FloatConv) (t : List Row) (f : Feature)
    (u : String) :
    findRow (upsertW sh fc t f) u =
      if f.global_parcel_uid == u then some (stepRow sh fc (findRow t u) f)
      else findRow t u := by
  unfold upsertW
  by_cases hfound : (findRow t f.global_parcel_uid).isSome = true
  · rw [if_pos hfound]
    rw [findRow_updateWhere t f.global_parcel_uid _ (fun r => stepRow_update_uid sh fc r f) u]
    by_cases hfu : (f.global_parcel_uid == u) = true
    · have hu : f.global_parcel_uid = u := eq_of_beq hfu
      rw [if_pos hfu]
      cases hr : findRow t u with
      | none =>
        rw [hu] at hfound
        rw [hr] at hfound
        simp at hfound
      | some r =>
        have hru : r.global_parcel_uid = u := findRow_eq_uid hr
        have hc : (r.global_parcel_uid == f.global_parcel_uid) = true := by
          rw [hru, hu]
          exact beq_self_eq_true u
        rw [Option.map_some', if_pos hc]
    · rw [if_neg hfu]
      cases hr : findRow t u with
      | none => rfl
      | some r =>
        have hru : r.global_parcel_uid = u := findRow_eq_uid hr
        have hc : ¬ (r.global_parcel_uid == f.global_parcel_uid) = true := by
          rw [hru]
          intro hcontra
          have : f.global_parcel_uid = u := (eq_of_beq hcontra).symm
          exact hfu (by rw [this]; exact beq_self_eq_true u)
        rw [Option.map_some', if_neg hc]
  · rw [if_neg hfound]
    rw [findRow_append_single]
    by_cases hfu : (f.global_parcel_uid == u) = true
    · have hu : f.global_parcel_uid = u := eq_of_beq hfu
      have hnone : findRow t u = Option.none := by
        rw [← hu]
        cases hft : findRow t f.global_parcel_uid with
        | none => rfl
        | some r => rw [hft] at hfound; simp at hfound
      have hc : ((stepRow sh fc Option.none f).global_parcel_uid == u) = true := by
        rw [stepRow_insert_uid, hu]
        exact beq_self_eq_true u
      rw [hnone, if_pos hfu]
      simp only
      rw [if_pos hc]
    · rw [if_neg hfu]
      cases hr : findRow t u with
      | none =>
        have hc : ¬ ((stepRow sh fc Option.none f).global_parcel_uid == u) = true := by
          rw [stepRow_insert_uid]
          exact hfu
        simp only
        rw [if_neg hc]
      | some r => rfl

theorem findRow_foldl_upsertW (sh : Shapely) (fc : FloatConv) (u : String) :
    ∀ (l : List Feature) (t : List Row),
    findRow (l.foldl (upsertW sh fc) t) u =
      collapseRow sh fc (findRow t u) (l.filter fun f => f.global_parcel_uid == u) := by
  intro l
  induction l with
  | nil => intro t; rfl
  | cons f l ih =>
    intro t
    rw [List.foldl_cons, ih, List.filter_cons]
    by_cases hfu : f.global_parcel_uid == u
    · rw [if_pos (by simpa using hfu)]
      rw [show findRow (upsertW sh fc t f) u = some (stepRow sh fc (findRow t u) f) from by
        rw [findRow_upsertW, if_pos hfu]]
      rfl
    · rw [if_neg (by simpa using hfu)]
      rw [show findRow (upsertW sh fc t f) u = findRow t u from by
        rw [findRow_upsertW, if_neg hfu]]

theorem collapseRow_some (sh : Shapely) (fc : FloatConv) :
    ∀ (l : List Feature) (r : Row),
    collapseRow sh fc (some r) l =
      some (l.foldl (fun r2 f => stepRow sh fc (some r2) f) r) := by
  intro l
  induction l with
  | nil => intro r; rfl
  | cons f l ih => intro r; rw [List.foldl_cons]; exact ih _

theorem uids_updateWhere (t : List Row) (x : String) (g : Row → Row)
    (hg : ∀ r, (g r).global_parcel_uid = r.global_parcel_uid) :
    uids (updateWhere t x g) = uids t := by
  unfold uids updateWhere
  rw [List.map_map]
  apply List.map_congr_left
  intro r _
  simp only [Function.comp]
  split
  · exact hg r
  · rfl

theorem findRow_none_not_mem {t : List Row} {u : String}
    (h : findRow t u = Option.none) : u ∉ uids t := by
  intro hmem
  obtain ⟨r, hr, hru⟩ := List.mem_map.1 hmem
  have := List.find?_eq_none.1 h r hr
  simp [hru] at this

theorem nodup_upsertW (sh : Shapely) (fc : FloatConv) (t : List Row) (f : Feature)
    (h : (uids t).Nodup) : (uids (upsertW sh fc t f)).Nodup := by
  unfold upsertW
  by_cases hfound : (findRow t f.global_parcel_uid).isSome = true
  · rw [if_pos hfound]
    rw [uids_updateWhere t f.global_parcel_uid _ (fun r => stepRow_update_uid sh fc r f)]
    exact h
  · rw [if_neg hfound]
    have hnone : findRow t f.global_parcel_uid = Option.none := by
      cases hft : findRow t f.global_parcel_uid with
      | none => rfl
      | some r => rw [hft] at hfound; simp at hfound
    have hnm : f.global_parcel_uid ∉ uids t := findRow_none_not_mem hnone
    rw [show uids (t ++ [stepRow sh fc Option.none f]) =
        uids t ++ [(stepRow sh fc Option.none f).global_parcel_uid] from by
      unfold uids; rw [List.map_append]; rfl]
    rw [stepRow_insert_uid]
    simp [List.nodup_append, h, hnm]

theorem nodup_foldl_upsertW (sh : Shapely) (fc : FloatConv) :
    ∀ (l : List Feature) (t : List Row), (uids t).Nodup →
    (uids (l.foldl (upsertW sh fc) t)).Nodup := by
  intro l
  induction l with
  | nil => intro t h; exact h
  | cons f l ih =>
    intro t h
    rw [List.foldl_cons]
    exact ih _ (nodup_upsertW sh fc t f h)

theorem filter_eq_singleton_of_findRow :
    ∀ (t : List Row) (u : String) (r : Row), (uids t).Nodup →
    findRow t u = some r →
    (t.filter fun r2 => r2.global_parcel_uid == u) = [r] := by
  intro t
  induction t with
  | nil => intro u r _ hf; exact absurd hf (by simp [findRow])
  | cons a t ih =>
    intro u r hnd hf
    rw [findRow_cons] at hf
    rw [List.filter_cons]
    by_cases hau : (a.global_parcel_uid == u) = true
    · rw [if_pos hau] at hf
      have hr : a = r := by injection hf
      subst hr
      rw [if_pos hau]
      have hnm : a.global_parcel_uid ∉ uids t := by
        unfold uids at hnd ⊢
        rw [List.map_cons] at hnd
        exact (List.nodup_cons.1 hnd).1
      have hfil : (t.filter fun r2 => r2.global_parcel_uid == u) = [] := by
        rw [List.filter_eq_nil_iff]
        intro r2 hr2
        intro hc
        apply hnm
        have h2u : r2.global_parcel_uid = u := eq_of_beq hc
        have hau2 : a.global_parcel_uid = u := eq_of_beq hau
        rw [hau2, ← h2u]
        exact List.mem_map_of_mem _ hr2
      rw [hfil]
    · rw [if_neg hau] at hf
      rw [if_neg hau]
      refine ih u r ?_ hf
      unfold uids at hnd ⊢
      rw [List.map_cons] at hnd
      exact (List.nodup_cons.1 hnd).2

theorem bump_find_eq (m : List (String × Nat)) (x v : String) :
    (m.map fun e => if e.1 == x then (e.1, e.2 + 1) else e).find? (fun e => e.1 == v) =
      ((m.find? fun e => e.1 == v).map fun e => if e.1 == x then (e.1, e.2 + 1) else e) := by
  induction m with
  | nil => rfl
  | cons e m ih =>
    rw [List.map_cons, List.find?_cons, List.find?_cons]
    have huid : (if e.1 == x then (e.1, e.2 + 1) else e).1 = e.1 := by
      split <;> rfl
    by_cases hev : (e.1 == v) = true
    · rw [show ((if e.1 == x then (e.1, e.2 + 1) else e).1 == v) = true from by
        rw [huid]; exact hev]
      rw [hev]
      rfl
    · rw [show ((if e.1 == x then (e.1, e.2 + 1) else e).1 == v) = false from by
        rw [huid]; exact Bool.not_eq_true _ ▸ (by simpa using hev)]
      rw [show (e.1 == v) = false from by simpa using hev]
      exact ih

theorem find?_append_pair (m : List (String × Nat)) (p : String × Nat) (v : String) :
    (m ++ [p]).find? (fun e => e.1 == v) =
      match m.find? fun e => e.1 == v with
      | some e => some e
      | Option.none => if p.1 == v then some p else Option.none := by
  induction m with
  | nil =>
    rw [List.nil_append, List.find?_cons]
    split <;> simp_all
  | cons e m ih =>
    rw [List.cons_append, List.find?_cons, List.find?_cons]
    by_cases hev : (e.1 == v) = true
    · rw [hev]
    · rw [show (e.1 == v) = false from by simpa using hev]
      exact ih

theorem lookupCount_bumpCount (m : List (String × Nat)) (x v : String) :
    lookupCount (bumpCount m x) v =
      if v = x then lookupCount m v + 1 else lookupCount m v := by
  unfold bumpCount
  by_cases hpres : ((m.find? fun e => e.1 == x).isSome) = true
  · rw [if_pos hpres]
    unfold lookupCount
    rw [bump_find_eq]
    cases hf : m.find? fun e => e.1 == v with
    | none =>
      simp only [Option.map_none']
      by_cases hvx : v = x
      · subst hvx
        rw [hf] at hpres
        simp at hpres
      · rw [if_neg hvx]
    | some e =>
      simp only [Option.map_some']
      have hev : e.1 = v := by
        have := List.find?_some hf
        exact eq_of_beq this
      by_cases hvx : v = x
      · rw [if_pos hvx]
        rw [show (e.1 == x) = true from by rw [hev, hvx]; exact beq_self_eq_true x]
        simp
      · rw [if_neg hvx]
        rw [show (e.1 == x) = false from by
          rw [hev]
          cases hb : (v == x) with
          | true => exact absurd (eq_of_beq hb) hvx
          | false => rfl]
        simp
  · rw [if_neg hpres]
    unfold lookupCount
    rw [find?_append_pair]
    have hnone : (m.find? fun e => e.1 == x) = Option.none := by
      cases hf : m.find? fun e => e.1 == x with
      | none => rfl
      | some e => rw [hf] at hpres; simp at hpres
    by_cases hvx : v = x
    · subst hvx
      rw [hnone]
      simp only
      rw [if_pos (beq_self_eq_true v)]
      simp
    · rw [if_neg hvx]
      cases hf : m.find? fun e => e.1 == v with
      | none =>
        simp only
        rw [if_neg (by
          cases hb : (x == v) with
          | true => exact absurd (eq_of_beq hb).symm hvx
          | false => simp)]
      | some e => rfl

theorem find?_isSome_bumpCount (m : List (String × Nat)) (x v : String) :
    ((bumpCount m x).find? fun e => e.1 == v).isSome =
      if v = x then true else (m.find? fun e => e.1 == v).isSome := by
  unfold bumpCount
  by_cases hpres : ((m.find? fun e => e.1 == x).isSome) = true
  · rw [if_pos hpres]
    rw [bump_find_eq]
    by_cases hvx : v = x
    · subst hvx
      rw [if_pos rfl]
      cases hf : m.find? fun e => e.1 == v with
      | none => rw [hf] at hpres; simp at hpres
      | some e => simp
    · rw [if_neg hvx]
      cases hf : m.find? fun e => e.1 == v with
      | none => simp
      | some e => simp
  · rw [if_neg hpres]
    rw [find?_append_pair]
    have hnone : (m.find? fun e => e.1 == x) = Option.none := by
      cases hf : m.find? fun e => e.1 == x with
      | none => rfl
      | some e => rw [hf] at hpres; simp at hpres
    by_cases hvx : v = x
    · subst hvx
      rw [if_pos rfl, hnone]
      simp only
      rw [if_pos (beq_self_eq_true v)]
      simp
    · rw [if_neg hvx]
      cases hf : m.find? fun e => e.1 == v with
      | none =>
        simp only
        rw [if_neg (by
          cases hb : (x == v) with
          | true => exact absurd (eq_of_beq hb).symm hvx
          | false => simp)]
      | some e => rfl

theorem insertOnce_mem (l : List String) (x v : String) :
    v ∈ insertOnce l x ↔ v ∈ l ∨ v = x := by
  unfold insertOnce
  split
  · constructor
    · intro h; exact Or.inl h
    · rintro (h | rfl)
      · exact h
      · assumption
  · simp

theorem insertOnce_nodup (l : List String) (x : String) (h : l.Nodup) :
    (insertOnce l x).Nodup := by
  unfold insertOnce
  by_cases hm : x ∈ l
  · rw [if_pos hm]; exact h
  · rw [if_neg hm]
    rw [List.nodup_append]
    refine ⟨h, List.nodup_singleton x, ?_⟩
    intro a ha hb
    simp only [List.mem_singleton] at hb
    subst hb
    exact hm ha

theorem trackInv_step (seen : List String) (cd : List (String × Nat) × List String)
    (x : String) (h : TrackInv seen cd) :
    TrackInv (seen ++ [x]) (trackStep cd x) := by
  obtain ⟨hcount, hpres, hnd, hdup⟩ := h
  have hcnt_app : ∀ v : String, (seen ++ [x]).count v =
      seen.count v + if v = x then 1 else 0 := by
    intro v
    rw [List.count_append]
    by_cases hvx : v = x
    · subst hvx
      simp [List.count_singleton]
    · rw [if_neg hvx]
      simp only [List.count_singleton]
      rw [show (x == v) = false from by
        cases hb : (x == v) with
        | true => exact absurd (eq_of_beq hb).symm hvx
        | false => rfl]
      rfl
  refine ⟨?_, ?_, ?_, ?_⟩
  · intro v
    show lookupCount (bumpCount cd.1 x) v = _
    rw [lookupCount_bumpCount, hcnt_app, hcount v]
    by_cases hvx : v = x
    · rw [if_pos hvx, if_pos hvx]
    · rw [if_neg hvx, if_neg hvx]
      omega
  · intro v
    show ((bumpCount cd.1 x).find? fun e => e.1 == v).isSome = true ↔ _
    rw [find?_isSome_bumpCount, hcnt_app]
    by_cases hvx : v = x
    · rw [if_pos hvx, if_pos hvx]
      constructor
      · intro _; omega
      · intro _; rfl
    · rw [if_neg hvx, if_neg hvx]
      rw [hpres v]
      omega
  · show ((if (cd.1.find? fun e => e.1 == x).isSome = true then
        insertOnce cd.2 x else cd.2)).Nodup
    split
    · exact insertOnce_nodup cd.2 x hnd
    · exact hnd
  · intro v
    show v ∈ (if (cd.1.find? fun e => e.1 == x).isSome = true then
        insertOnce cd.2 x else cd.2) ↔ _
    rw [hcnt_app]
    by_cases hseen : ((cd.1.find? fun e => e.1 == x).isSome) = true
    · rw [if_pos hseen]
      have hx1 : 1 ≤ seen.count x := (hpres x).1 hseen
      rw [insertOnce_mem, hdup v]
      by_cases hvx : v = x
      · subst hvx
        rw [if_pos rfl]
        constructor
        · intro _; omega
        · intro _; exact Or.inr rfl
      · rw [if_neg hvx]
        constructor
        · rintro (hl | rfl)
          · omega
          · exact absurd rfl hvx
        · intro h2; exact Or.inl (by omega)
    · rw [if_neg hseen]
      have hx0 : seen.count x = 0 := by
        by_cases h1 : 1 ≤ seen.count x
        · exact absurd ((hpres x).2 h1) hseen
        · omega
      rw [hdup v]
      by_cases hvx : v = x
      · subst hvx
        rw [if_pos rfl, hx0]
        omega
      · rw [if_neg hvx]
        omega

theorem trackInv_fold :
    ∀ (l : List String) (seen : List String) (cd : List (String × Nat) × List String),
    TrackInv seen cd →
    TrackInv (seen ++ l) (l.foldl trackStep cd) := by
  intro l
  induction l with
  | nil => intro seen cd h; simpa using h
  | cons x l ih =>
    intro seen cd h
    rw [List.foldl_cons]
    have := ih (seen ++ [x]) (trackStep cd x) (trackInv_step seen cd x h)
    simpa using this

theorem trackInv_initial : TrackInv [] ([], []) := by
  refine ⟨fun v => rfl, fun v => by simp [List.find?], List.nodup_nil, fun v => by simp⟩

theorem stepRow_insert_fields (sh : Shapely) (fc : FloatConv) (f : Feature) :
    (stepRow sh fc Option.none f).global_parcel_uid = f.global_parcel_uid ∧
    (stepRow sh fc Option.none f).county_parcel_id_num = f.county_parcel_id_num ∧
    (stepRow sh fc Option.none f).owner_name = f.owner_name ∧
    (stepRow sh fc Option.none f).physical_address = f.physical_address ∧
    (stepRow sh fc Option.none f).mailing_address = f.mailing_address ∧
    (stepRow sh fc Option.none f).address = f.physical_address ∧
    (stepRow sh fc Option.none f).acreage = parse_numeric fc f.acreage ∧
    (stepRow sh fc Option.none f).property_value = parse_numeric fc f.property_value ∧
    (stepRow sh fc Option.none f).land_type_description = f.land_type ∧
    (stepRow sh fc Option.none f).deed_reference = f.deed_reference ∧
    (stepRow sh fc Option.none f).owner_city = f.owner_city ∧
    (stepRow sh fc Option.none f).owner_state = f.owner_state ∧
    (stepRow sh fc Option.none f).owner_zip = f.owner_zip ∧
    (stepRow sh fc Option.none f).property_details_link = f.property_details_link ∧
    (stepRow sh fc Option.none f).tax_details_link = f.tax_details_link ∧
    (stepRow sh fc Option.none f).clerk_records_link = f.clerk_records_link ∧
    (stepRow sh fc Option.none f).county = f.county ∧
    (stepRow sh fc Option.none f).state = f.state ∧
    (stepRow sh fc Option.none f).geometry = geomResolve sh f ∧
    (stepRow sh fc Option.none f).has_spatial_data = (geomResolve sh f).isSome := by
  unfold stepRow
  cases hgr : geomResolve sh f <;>
    simp [spatialInsertRow, nonSpatialInsertRow]

/-- An existing row hit by one failure-free record: since the UPDATE
statement sets every modelled column except the key and
`county_parcel_id_num`, the result is the row a fresh insert of the same
record would produce, with those two columns kept from the stored row. -/
theorem stepRow_some_eq (sh : Shapely) (fc : FloatConv) (r : Row) (f : Feature) :
    stepRow sh fc (some r) f =
      { stepRow sh fc Option.none f with
        global_parcel_uid := r.global_parcel_uid
        county_parcel_id_num := r.county_parcel_id_num } := by
  unfold stepRow
  cases geomResolve sh f <;> rfl

theorem stepRow_update_pid (sh : Shapely) (fc : FloatConv) (r : Row) (f : Feature) :
    (stepRow sh fc (some r) f).county_parcel_id_num = r.county_parcel_id_num := by
  unfold stepRow
  cases geomResolve sh f <;>
    simp [applySpatialUpdate, applyNonSpatialUpdate]

theorem foldl_stepRow_uid (sh : Shapely) (fc : FloatConv) :
    ∀ (l : List Feature) (r0 : Row),
    ((l.foldl (fun r2 f => stepRow sh fc (some r2) f) r0)).global_parcel_uid =
      r0.global_parcel_uid := by
  intro l
  induction l with
  | nil => intro r0; rfl
  | cons f l ih =>
    intro r0
    rw [List.foldl_cons, ih, stepRow_update_uid]

theorem foldl_stepRow_pid (sh : Shapely) (fc : FloatConv) :
    ∀ (l : List Feature) (r0 : Row),
    ((l.foldl (fun r2 f => stepRow sh fc (some r2) f) r0)).county_parcel_id_num =
      r0.county_parcel_id_num := by
  intro l
  induction l with
  | nil => intro r0; rfl
  | cons f l ih =>
    intro r0
    rw [List.foldl_cons, ih, stepRow_update_pid]

/-- A nonempty run of failure-free updates over one row collapses to the
last record's write, keeping the key and `county_parcel_id_num` of the
starting row. -/
theorem foldl_stepRow_concat (sh : Shapely) (fc : FloatConv) (l : List Feature)
    (g : Feature) (r0 : Row) :
    (l ++ [g]).foldl (fun r2 f => stepRow sh fc (some r2) f) r0 =
      { stepRow sh fc Option.none g with
        global_parcel_uid := r0.global_parcel_uid
        county_parcel_id_num := r0.county_parcel_id_num } := by
  rw [List.foldl_append, List.foldl_cons, List.foldl_nil, stepRow_some_eq,
    foldl_stepRow_uid, foldl_stepRow_pid]

theorem count_map_uid (features : List Feature) (u : String) :
    (features.map fun f => f.global_parcel_uid).count u =
      (features.filter fun f => f.global_parcel_uid == u).length := by
  induction features with
  | nil => rfl
  | cons f l ih =>
    rw [List.map_cons, List.count_cons, List.filter_cons, ih]
    by_cases h : (f.global_parcel_uid == u) = true
    · rw [if_pos h, if_pos h, List.length_cons]
    · rw [if_neg h, if_neg h]
      omega

theorem count_eq_one_nodup :
    ∀ (l : List String) (u : String), l.Nodup → u ∈ l → l.count u = 1 := by
  intro l
  induction l with
  | nil => intro u _ hm; exact absurd hm (by simp)
  | cons a l ih =>
    intro u hnd hm
    rw [List.count_cons]
    by_cases hau : a = u
    · subst hau
      have hnm : a ∉ l := (List.nodup_cons.1 hnd).1
      rw [List.count_eq_zero.2 hnm, if_pos (beq_self_eq_true a)]
    · have hm2 : u ∈ l := by
        cases List.mem_cons.1 hm with
        | inl h => exact absurd h.symm hau
        | inr h => exact h
      rw [ih u (List.nodup_cons.1 hnd).2 hm2]
      rw [if_neg (by
        cases hb : (a == u) with
        | true => exact absurd (eq_of_beq hb) hau
        | false => simp)]

/-- C2 (amended): for every failure-free input containing two or more
features sharing one `global_parcel_uid`, and every starting table with
pairwise-distinct keys (the schema's UNIQUE constraint) not already
holding that identifier, `update_parcel_data` leaves exactly one
persisted row for it; every column the UPDATE statement sets — owner,
physical/mailing address, the address column, acreage, property value,
land type, deed reference, owner city/state/zip, the three links, county,
state, geometry and the spatial flag — comes from the last-processed
feature, but `county_parcel_id_num` keeps the value of the
first-processed feature, because the UPDATE statement never sets that
column; the reconciliation step reports the identifier as a duplicate
exactly once. -/
theorem upsert_duplicate_uid_resolution
    (sh : Shapely) (fc : FloatConv) (table : List Row) (features : List Feature)
    (u : String)
    (htable : (uids table).Nodup)
    (hfresh : findRow table u = Option.none)
    (hdup : 2 ≤ (features.filter fun f => f.global_parcel_uid == u).length)
    (hok : ∀ f ∈ features, f.failWrite = false ∧ f.geomWriteFail = false) :
    ∃ f0 fl r,
      (features.filter fun f => f.global_parcel_uid == u).head? = some f0 ∧
      (features.filter fun f => f.global_parcel_uid == u).getLast? = some fl ∧
      ((update_parcel_data sh fc table features).committed.filter
          fun r2 => r2.global_parcel_uid == u) = [r] ∧
      r.global_parcel_uid = f0.global_parcel_uid ∧
      r.county_parcel_id_num = f0.county_parcel_id_num ∧
      r.owner_name = fl.owner_name ∧
      r.physical_address = fl.physical_address ∧
      r.mailing_address = fl.mailing_address ∧
      r.address = fl.physical_address ∧
      r.acreage = parse_numeric fc fl.acreage ∧
      r.property_value = parse_numeric fc fl.property_value ∧
      r.land_type_description = fl.land_type ∧
      r.deed_reference = fl.deed_reference ∧
      r.owner_city = fl.owner_city ∧
      r.owner_state = fl.owner_state ∧
      r.owner_zip = fl.owner_zip ∧
      r.property_details_link = fl.property_details_link ∧
      r.tax_details_link = fl.tax_details_link ∧
      r.clerk_records_link = fl.clerk_records_link ∧
      r.county = fl.county ∧
      r.state = fl.state ∧
      r.geometry = geomResolve sh fl ∧
      r.has_spatial_data = (geomResolve sh fl).isSome ∧
      (update_parcel_data sh fc table features).duplicate_parcel_ids.count u = 1 := by
  obtain ⟨f0, rest, hfs⟩ :
      ∃ f0 rest, (features.filter fun f => f.global_parcel_uid == u) = f0 :: rest := by
    cases h : features.filter fun f => f.global_parcel_uid == u with
    | nil => rw [h] at hdup; simp at hdup
    | cons a l => exact ⟨a, l, rfl⟩
  have hrest_ne : rest ≠ [] := by
    intro hcon
    rw [hfs, hcon] at hdup
    simp at hdup
  obtain ⟨l2, g, hl2⟩ := (List.eq_nil_or_concat rest).resolve_left hrest_ne
  rw [List.concat_eq_append] at hl2
  have hne : features ≠ [] := by
    intro hcon
    rw [hcon] at hfs
    simp at hfs
  have hcom : (update_parcel_data sh fc table features).committed =
      features.foldl (upsertW sh fc) table :=
    update_parcel_data_committed sh fc table features hne hok
  have hfind : findRow (features.foldl (upsertW sh fc) table) u =
      some (rest.foldl (fun r2 f => stepRow sh fc (some r2) f)
        (stepRow sh fc Option.none f0)) := by
    rw [findRow_foldl_upsertW sh fc u features table, hfresh, hfs]
    show collapseRow sh fc (some (stepRow sh fc Option.none f0)) rest = _
    exact collapseRow_some sh fc rest _
  have hnodup : (uids (features.foldl (upsertW sh fc) table)).Nodup :=
    nodup_foldl_upsertW sh fc features table htable
  have hfilter : ((features.foldl (upsertW sh fc) table).filter
      fun r2 => r2.global_parcel_uid == u) =
      [rest.foldl (fun r2 f => stepRow sh fc (some r2) f)
        (stepRow sh fc Option.none f0)] :=
    filter_eq_singleton_of_findRow _ u _ hnodup hfind
  have hr_eq : rest.foldl (fun r2 f => stepRow sh fc (some r2) f)
      (stepRow sh fc Option.none f0) =
      { stepRow sh fc Option.none g with
        global_parcel_uid := f0.global_parcel_uid
        county_parcel_id_num := f0.county_parcel_id_num } := by
    rw [hl2, foldl_stepRow_concat, (stepRow_insert_fields sh fc f0).1,
      (stepRow_insert_fields sh fc f0).2.1]
  obtain ⟨hg1, hg2, hg3, hg4, hg5, hg6, hg7, hg8, hg9, hg10, hg11, hg12, hg13, hg14,
    hg15, hg16, hg17, hg18, hg19, hg20⟩ := stepRow_insert_fields sh fc g
  refine ⟨f0, g,
    rest.foldl (fun r2 f => stepRow sh fc (some r2) f) (stepRow sh fc Option.none f0),
    ?_, ?_, ?_, ?_, ?_, ?_, ?_, ?_, ?_, ?_, ?_, ?_, ?_, ?_, ?_, ?_, ?_, ?_, ?_, ?_,
    ?_, ?_, ?_, ?_⟩
  · rw [hfs]
    rfl
  · rw [hfs, hl2, ← List.cons_append, List.getLast?_concat]
  · rw [hcom, hfilter]
  · rw [hr_eq]
  · rw [hr_eq]
  · rw [hr_eq]; exact hg3
  · rw [hr_eq]; exact hg4
  · rw [hr_eq]; exact hg5
  · rw [hr_eq]; exact hg6
  · rw [hr_eq]; exact hg7
  · rw [hr_eq]; exact hg8
  · rw [hr_eq]; exact hg9
  · rw [hr_eq]; exact hg10
  · rw [hr_eq]; exact hg11
  · rw [hr_eq]; exact hg12
  · rw [hr_eq]; exact hg13
  · rw [hr_eq]; exact hg14
  · rw [hr_eq]; exact hg15
  · rw [hr_eq]; exact hg16
  · rw [hr_eq]; exact hg17
  · rw [hr_eq]; exact hg18
  · rw [hr_eq]; exact hg19
  · rw [hr_eq]; exact hg20
  · have htrack := update_parcel_data_track sh fc table features
    have hdup_eq : (update_parcel_data sh fc table features).duplicate_parcel_ids =
        ((features.map fun f => f.global_parcel_uid).foldl trackStep ([], [])).2 := by
      have h2 : (features.map fun f => f.global_parcel_uid).foldl trackStep ([], []) =
          features.foldl (fun cd f => trackStep cd f.global_parcel_uid) ([], []) :=
        List.foldl_map _ _ _ _
      rw [h2]
      exact congrArg Prod.snd htrack
    have hinv : TrackInv (features.map fun f => f.global_parcel_uid)
        ((features.map fun f => f.global_parcel_uid).foldl trackStep ([], [])) := by
      have := trackInv_fold (features.map fun f => f.global_parcel_uid) [] ([], [])
        trackInv_initial
      simpa using this
    have hu2 : 2 ≤ (features.map fun f => f.global_parcel_uid).count u := by
      rw [count_map_uid]
      exact hdup
    have hmem : u ∈ ((features.map fun f => f.global_parcel_uid).foldl
        trackStep ([], [])).2 := (hinv.2.2.2 u).2 hu2
    rw [hdup_eq]
    exact count_eq_one_nodup _ u hinv.2.2.1 hmem

/-- C2 witness: the duplicate pair evaluated concretely through the
amended theorem against the empty starting table. -/
theorem upsert_duplicate_uid_resolution_witness :
    ((update_parcel_data shAll fcNone [] featsDup).committed.filter
        fun r2 => r2.global_parcel_uid == uidU).length = 1 ∧
    (update_parcel_data shAll fcNone [] featsDup).duplicate_parcel_ids.count uidU = 1 := by
  obtain ⟨f0, fl, r, h1, h2, h3, h4, h5, h6, h7, h8, h9, h10, h11, h12, h13, h14, h15,
    h16, h17, h18, h19, h20, h21, h22, h23, h24⟩ :=
    upsert_duplicate_uid_resolution shAll fcNone [] featsDup uidU (by simp [uids])
      rfl (by decide) (by decide)
  exact ⟨by rw [h3]; rfl, h24⟩

end CommunityView
